import Mathlib

/-!
# Verification of the views-forecast-api query-and-filter engine

A shallow embedding, in Lean 4, of the core query-and-filter engine of the
`views-forecast-api` repository: the metric catalog, the record model with
its construction-time invariants (`app/models/forecast.py`), the filter
evaluator (`app/services/data_loader.py`), the month-range expansion and the
summary aggregator (`app/services/forecast_service.py`), and the
month-metadata operation.

Modelling conventions:
* Python floats are modelled as rationals (`ℚ`); the numeric values the
  claims exercise are small decimals on which float and rational arithmetic
  agree.
* Fallible Python code (raising `ValueError` / pydantic `ValidationError` /
  `TypeError`) is modelled with `Except String`, carrying the source's error
  message (or the exception class name, for non-`ValueError` exceptions).
* A pandas `DataFrame` is modelled as a list of typed rows together with the
  list of metric columns present in the schema; the seven base columns
  (`grid_id` … `month`) are always present and their names are disjoint from
  the thirteen metric column names, so only metric columns matter for the
  schema checks the code performs.
* Python truthiness of optional strings/lists (`if country:` is skipped for
  `None` and for empty values) is modelled explicitly.
-/

/-- The enumeration of the thirteen supported forecast metrics
(`MetricName` in `app/models/forecast.py`). -/
inductive MetricName where
  | map
  | ci_50_low
  | ci_50_high
  | ci_90_low
  | ci_90_high
  | ci_99_low
  | ci_99_high
  | prob_0
  | prob_1
  | prob_10
  | prob_100
  | prob_1000
  | prob_10000
deriving DecidableEq, Repr

namespace MetricName

/-- The string value of a metric name (the `str`-valued enum member). -/
def value : MetricName → String
  | .map => "map"
  | .ci_50_low => "ci_50_low"
  | .ci_50_high => "ci_50_high"
  | .ci_90_low => "ci_90_low"
  | .ci_90_high => "ci_90_high"
  | .ci_99_low => "ci_99_low"
  | .ci_99_high => "ci_99_high"
  | .prob_0 => "prob_0"
  | .prob_1 => "prob_1"
  | .prob_10 => "prob_10"
  | .prob_100 => "prob_100"
  | .prob_1000 => "prob_1000"
  | .prob_10000 => "prob_10000"

/-- All metric names, in declaration order (iteration order of the enum). -/
def all : List MetricName :=
  [.map, .ci_50_low, .ci_50_high, .ci_90_low, .ci_90_high, .ci_99_low,
   .ci_99_high, .prob_0, .prob_1, .prob_10, .prob_100, .prob_1000, .prob_10000]

/-- Decoding a string back into a metric name (the enum lookup `MetricName(s)`). -/
def ofString (s : String) : Option MetricName :=
  MetricName.all.find? (fun n => n.value = s)

end MetricName

/-- `ALL_METRIC_NAMES` from `app/models/forecast.py`: the tuple of all metric
name strings in declaration order. -/
def ALL_METRIC_NAMES : List String := MetricName.all.map MetricName.value

/-- The `ForecastMetrics` record (`app/models/forecast.py`): up to thirteen
optional floating-point metric fields.  The pydantic invariants are enforced
by the checked constructor `mkForecastMetrics` below, not by the bare
structure. -/
structure ForecastMetrics where
  map : Option ℚ := none
  ci_50_low : Option ℚ := none
  ci_50_high : Option ℚ := none
  ci_90_low : Option ℚ := none
  ci_90_high : Option ℚ := none
  ci_99_low : Option ℚ := none
  ci_99_high : Option ℚ := none
  prob_0 : Option ℚ := none
  prob_1 : Option ℚ := none
  prob_10 : Option ℚ := none
  prob_100 : Option ℚ := none
  prob_1000 : Option ℚ := none
  prob_10000 : Option ℚ := none
deriving DecidableEq, Repr

namespace ForecastMetrics

/-- Field access by metric name. -/
def fieldGet (m : ForecastMetrics) : MetricName → Option ℚ
  | .map => m.map
  | .ci_50_low => m.ci_50_low
  | .ci_50_high => m.ci_50_high
  | .ci_90_low => m.ci_90_low
  | .ci_90_high => m.ci_90_high
  | .ci_99_low => m.ci_99_low
  | .ci_99_high => m.ci_99_high
  | .prob_0 => m.prob_0
  | .prob_1 => m.prob_1
  | .prob_10 => m.prob_10
  | .prob_100 => m.prob_100
  | .prob_1000 => m.prob_1000
  | .prob_10000 => m.prob_10000

/-- `ForecastMetrics.model_dump` with its `exclude_none=True` default:
serialise the present fields, in declaration order, omitting absent ones. -/
def model_dump (m : ForecastMetrics) : List (String × ℚ) :=
  MetricName.all.filterMap (fun n => (m.fieldGet n).map (fun v => (n.value, v)))

end ForecastMetrics

/-- The pydantic `ge=0` field constraint on a non-probability metric field:
absent values pass, present values must be non-negative. -/
def checkNonNeg (name : String) : Option ℚ → Except String Unit
  | none => .ok ()
  | some v =>
    if v < 0 then .error (name ++ ": Input should be greater than or equal to 0")
    else .ok ()

/-- The pydantic `ge=0, le=1` field constraints on a `prob_*` field. -/
def checkUnit (name : String) : Option ℚ → Except String Unit
  | none => .ok ()
  | some v =>
    if v < 0 then .error (name ++ ": Input should be greater than or equal to 0")
    else if 1 < v then .error (name ++ ": Input should be less than or equal to 1")
    else .ok ()

/-- The custom field validator `ForecastMetrics.validate_ci_high`: a present
upper confidence bound must be at least the corresponding present lower
bound; absent values pass. -/
def checkCiHigh (highName lowName : String) (high low : Option ℚ) :
    Except String Unit :=
  match high, low with
  | some h, some l =>
    if h < l then .error (highName ++ " must be >= " ++ lowName) else .ok ()
  | _, _ => .ok ()

/-- The per-field validations pydantic runs when constructing
`ForecastMetrics(**metrics_data)`, in field declaration order; each
`ci_*_high` field additionally runs `validate_ci_high` against the
already-validated lower bound. -/
def metricChecks (f : MetricName → Option ℚ) : List (Except String Unit) :=
  [checkNonNeg "map" (f .map),
   checkNonNeg "ci_50_low" (f .ci_50_low),
   checkNonNeg "ci_50_high" (f .ci_50_high),
   checkCiHigh "ci_50_high" "ci_50_low" (f .ci_50_high) (f .ci_50_low),
   checkNonNeg "ci_90_low" (f .ci_90_low),
   checkNonNeg "ci_90_high" (f .ci_90_high),
   checkCiHigh "ci_90_high" "ci_90_low" (f .ci_90_high) (f .ci_90_low),
   checkNonNeg "ci_99_low" (f .ci_99_low),
   checkNonNeg "ci_99_high" (f .ci_99_high),
   checkCiHigh "ci_99_high" "ci_99_low" (f .ci_99_high) (f .ci_99_low),
   checkUnit "prob_0" (f .prob_0),
   checkUnit "prob_1" (f .prob_1),
   checkUnit "prob_10" (f .prob_10),
   checkUnit "prob_100" (f .prob_100),
   checkUnit "prob_1000" (f .prob_1000),
   checkUnit "prob_10000" (f .prob_10000)]

/-- Run validations in order, stopping at the first failure. -/
def runChecks : List (Except String Unit) → Except String Unit
  | [] => .ok ()
  | c :: rest =>
    match c with
    | .ok _ => runChecks rest
    | .error e => .error e

/-- The checked construction `ForecastMetrics(**metrics_data)`: pydantic runs
the per-field constraints in field declaration order, then the model
validator `ensure_metrics_present` requires at least one field to be
present.  The argument assigns to each field the value its keyword argument
carries, `none` when the keyword is absent. -/
def mkForecastMetrics (f : MetricName → Option ℚ) : Except String ForecastMetrics :=
  match runChecks (metricChecks f) with
  | .error e => .error e
  | .ok _ =>
    if MetricName.all.all (fun n => (f n).isNone) then
      .error "At least one metric value must be provided"
    else
      .ok {
        map := f .map
        ci_50_low := f .ci_50_low
        ci_50_high := f .ci_50_high
        ci_90_low := f .ci_90_low
        ci_90_high := f .ci_90_high
        ci_99_low := f .ci_99_low
        ci_99_high := f .ci_99_high
        prob_0 := f .prob_0
        prob_1 := f .prob_1
        prob_10 := f .prob_10
        prob_100 := f .prob_100
        prob_1000 := f .prob_1000
        prob_10000 := f .prob_10000 }

deriving instance DecidableEq for Except

/-- The `GridCellForecast` record (`app/models/forecast.py`): one
(grid cell × month) observation. -/
structure GridCellForecast where
  grid_id : ℤ
  latitude : ℚ
  longitude : ℚ
  country_id : String
  admin_1_id : Option String
  admin_2_id : Option String
  month : String
  metrics : ForecastMetrics
deriving DecidableEq, Repr

/-- The checked construction `GridCellForecast(...)`: pydantic enforces
`latitude ∈ [-90, 90]` and `longitude ∈ [-180, 180]` at construction time. -/
def mkGridCellForecast (grid_id : ℤ) (latitude longitude : ℚ)
    (country_id : String) (admin_1_id admin_2_id : Option String)
    (month : String) (metrics : ForecastMetrics) :
    Except String GridCellForecast :=
  if latitude < -90 then
    .error "latitude: Input should be greater than or equal to -90"
  else if 90 < latitude then
    .error "latitude: Input should be less than or equal to 90"
  else if longitude < -180 then
    .error "longitude: Input should be greater than or equal to -180"
  else if 180 < longitude then
    .error "longitude: Input should be less than or equal to 180"
  else
    .ok ⟨grid_id, latitude, longitude, country_id, admin_1_id, admin_2_id,
         month, metrics⟩

/-- The field validator `ForecastQuery.validate_country`
(`app/models/forecast.py`): falsy values (`None` or the empty string) are
returned unchanged; otherwise the code requires `v.isdigit() and
len(v) == 3`.  Python's `str.isdigit` is a Unicode-aware runtime character
classifier, so the embedding takes the per-character test as a parameter;
the theorems assume only its documented ASCII behavior (among characters
below `U+0080`, exactly the digits `'0'..'9'` satisfy `str.isdigit`). -/
def validate_country (isdigit : Char → Bool) :
    Option String → Except String (Option String)
  | none => .ok none
  | some v =>
    if v = "" then .ok (some v)
    else if v.toList.all isdigit && v.length = 3 then .ok (some v)
    else .error "Country code must be a UN M49 numeric identifier padded to 3 digits"

/-- An ASCII character satisfying the ASCII digit test has a code point
below 128. -/
theorem char_isDigit_ascii {c : Char} (h : c.isDigit = true) :
    c.toNat < 128 := by
  unfold Char.isDigit at h
  rw [Bool.and_eq_true] at h
  have h2 := of_decide_eq_true h.2
  have h3 : c.toNat ≤ 57 := h2
  omega

/-- A Unicode-aware digit classifier with the same ASCII behavior as
Python's `str.isdigit` that also accepts the Arabic-Indic digits
`U+0660`-`U+0669` (as `str.isdigit` does). -/
def unicodeAwareIsDigit (c : Char) : Bool :=
  c.isDigit || (0x660 ≤ c.toNat && c.toNat ≤ 0x669)

/-- `unicodeAwareIsDigit` agrees with the ASCII digit test on ASCII
characters, so it is a legitimate instantiation of the classifier
parameter of `validate_country`. -/
theorem unicodeAwareIsDigit_ascii :
    ∀ c : Char, c.toNat < 128 → unicodeAwareIsDigit c = c.isDigit := by
  intro c h
  unfold unicodeAwareIsDigit
  have h2 : (0x660 ≤ c.toNat && c.toNat ≤ 0x669) = false := by
    rw [Bool.and_eq_false_iff]
    left
    rw [decide_eq_false_iff_not]
    omega
  rw [h2, Bool.or_false]

/-- Modelled from the spec: the tagged comparison-operator variant
`ComparisonOperator` over `{>, >=, <, <=}` (§3, §9 of the spec).  The type is
imported by `app/services/data_loader.py` but its defining module is not
present under `src/`. -/
inductive ComparisonOperator where
  | gt
  | gte
  | lt
  | lte
deriving DecidableEq, Repr

/-- Evaluation of a comparison operator, as dispatched by the
`constraint.operator is ComparisonOperator...` chain in
`DataLoader.get_forecasts`. -/
def ComparisonOperator.holds : ComparisonOperator → ℚ → ℚ → Bool
  | .gt, x, v => decide (v < x)
  | .gte, x, v => decide (v ≤ x)
  | .lt, x, v => decide (x < v)
  | .lte, x, v => decide (x ≤ v)

/-- Modelled from the spec: a parsed metric predicate
`{metric, operator, value}` (§3).  The type is imported by
`app/services/data_loader.py` but its defining module is not present under
`src/`. -/
structure MetricConstraint where
  metric : MetricName
  operator : ComparisonOperator
  value : ℚ
deriving DecidableEq, Repr

/-- One row of the forecast `DataFrame`.  The seven base columns are typed
fields; `mval` gives the row's value in each metric column (the schema
records separately which metric columns the frame actually has). -/
structure Row where
  grid_id : ℤ
  latitude : ℚ
  longitude : ℚ
  country_id : String
  admin_1_id : Option String
  admin_2_id : Option String
  month : String
  mval : MetricName → ℚ

/-- The forecast `DataFrame`: its rows plus the list of metric columns
present in the schema (`df.columns`, restricted to the thirteen metric
names; the base column names are disjoint from the metric names). -/
structure Dataset where
  cols : List String
  rows : List Row

/-- The metric-constraint loop of `DataLoader.get_forecasts` (lines
352-365): for each constraint in order, raise `ValueError` if the named
column is not in the schema, otherwise keep only the rows satisfying the
comparison. -/
def applyConstraints (cols : List String) :
    List MetricConstraint → List Row → Except String (List Row)
  | [], rows => .ok rows
  | c :: rest, rows =>
    if cols.contains c.metric.value then
      applyConstraints cols rest
        (rows.filter (fun r => c.operator.holds (r.mval c.metric) c.value))
    else
      .error ("Metric '" ++ c.metric.value ++ "' is not available for filtering")

/-- The four narrowing steps of `DataLoader.get_forecasts` (lines 343-365),
with Python truthiness: a `None` country, empty-string country, `None` or
empty lists skip their step. -/
def filterRows (ds : Dataset) (country : Option String)
    (grid_ids : Option (List ℤ)) (months : Option (List String))
    (metric_constraints : Option (List MetricConstraint)) :
    Except String (List Row) :=
  let rows := ds.rows
  let rows := match country with
    | some c => if c = "" then rows else rows.filter (fun r => decide (r.country_id = c))
    | none => rows
  let rows := match grid_ids with
    | some ids => if ids.isEmpty then rows else rows.filter (fun r => ids.contains r.grid_id)
    | none => rows
  let rows := match months with
    | some ms => if ms.isEmpty then rows else rows.filter (fun r => ms.contains r.month)
    | none => rows
  match metric_constraints with
  | some cs => if cs.isEmpty then .ok rows else applyConstraints ds.cols cs rows
  | none => .ok rows

/-- The projection set of `DataLoader.get_forecasts` line 367:
`[m.value for m in metrics] if metrics else ALL_METRIC_NAMES` (a `None` or
empty `metrics` list selects all thirteen names). -/
def selectedMetrics (metrics : Option (List MetricName)) : List String :=
  match metrics with
  | some l => if l.isEmpty then ALL_METRIC_NAMES else l.map MetricName.value
  | none => ALL_METRIC_NAMES

/-- Building one `GridCellForecast` from a surviving row (lines 370-384):
`metrics_data` keeps a metric key exactly when it is selected and its column
exists in the schema, and the two pydantic constructors run in order. -/
def buildForecast (cols selected : List String) (r : Row) :
    Except String GridCellForecast := do
  let fm ← mkForecastMetrics (fun n =>
    if selected.contains n.value && cols.contains n.value then some (r.mval n) else none)
  mkGridCellForecast r.grid_id r.latitude r.longitude r.country_id
    r.admin_1_id r.admin_2_id r.month fm

/-- The result-construction loop of `DataLoader.get_forecasts`:
build a forecast for each surviving row, in row order. -/
def buildAll (cols selected : List String) :
    List Row → Except String (List GridCellForecast)
  | [] => .ok []
  | r :: rs => do
    let f ← buildForecast cols selected r
    let fs ← buildAll cols selected rs
    .ok (f :: fs)

/-- `DataLoader.get_forecasts` (lines 333-386): the four narrowing steps
followed by projection and record construction. -/
def get_forecasts (ds : Dataset) (country : Option String)
    (grid_ids : Option (List ℤ)) (months : Option (List String))
    (metrics : Option (List MetricName))
    (metric_constraints : Option (List MetricConstraint)) :
    Except String (List GridCellForecast) := do
  let rows ← filterRows ds country grid_ids months metric_constraints
  buildAll ds.cols (selectedMetrics metrics) rows

/-- One narrowing step of the evaluator, for the order-invariance analysis:
for a fixed query each of the four steps either filters by a row predicate
or fails with a message that does not depend on the rows. -/
inductive StepKind where
  | filt (p : Row → Bool)
  | fail (e : String)

/-- Running one step. -/
def StepKind.run : StepKind → List Row → Except String (List Row)
  | .filt p, rows => .ok (rows.filter p)
  | .fail e, _ => .error e

/-- Running a sequence of steps, stopping at the first failure. -/
def runSteps : List StepKind → List Row → Except String (List Row)
  | [], rows => .ok rows
  | s :: rest, rows =>
    match s.run rows with
    | .ok rows2 => runSteps rest rows2
    | .error e => .error e

/-- The country step of `DataLoader.get_forecasts` as a `StepKind`. -/
def countryStep (country : Option String) : StepKind :=
  match country with
  | some c =>
    if c = "" then .filt (fun _ => true)
    else .filt (fun r => decide (r.country_id = c))
  | none => .filt (fun _ => true)

/-- The grid-id step of `DataLoader.get_forecasts` as a `StepKind`. -/
def gridStep (grid_ids : Option (List ℤ)) : StepKind :=
  match grid_ids with
  | some ids =>
    if ids.isEmpty then .filt (fun _ => true)
    else .filt (fun r => ids.contains r.grid_id)
  | none => .filt (fun _ => true)

/-- The month step of `DataLoader.get_forecasts` as a `StepKind`. -/
def monthStep (months : Option (List String)) : StepKind :=
  match months with
  | some ms =>
    if ms.isEmpty then .filt (fun _ => true)
    else .filt (fun r => ms.contains r.month)
  | none => .filt (fun _ => true)

/-- The metric-constraint step as a `StepKind`: it fails on the first
constraint whose column is missing from the schema (a check independent of
the rows), and otherwise filters by the conjunction of all constraints. -/
def constraintsKind (cols : List String) (cs : List MetricConstraint) : StepKind :=
  match cs.find? (fun c => !cols.contains c.metric.value) with
  | some c => .fail ("Metric '" ++ c.metric.value ++ "' is not available for filtering")
  | none => .filt (fun r => cs.all (fun c => c.operator.holds (r.mval c.metric) c.value))

/-- The metric-constraint step of `DataLoader.get_forecasts` as a
`StepKind`, with Python truthiness on the optional list. -/
def constraintsStep (cols : List String)
    (metric_constraints : Option (List MetricConstraint)) : StepKind :=
  match metric_constraints with
  | some cs => if cs.isEmpty then .filt (fun _ => true) else constraintsKind cols cs
  | none => .filt (fun _ => true)

/-- The four narrowing steps of `DataLoader.get_forecasts`, in source
order. -/
def filterSteps (cols : List String) (country : Option String)
    (grid_ids : Option (List ℤ)) (months : Option (List String))
    (metric_constraints : Option (List MetricConstraint)) : List StepKind :=
  [countryStep country, gridStep grid_ids, monthStep months,
   constraintsStep cols metric_constraints]

/-- A calendar month, as produced by `datetime.strptime(f"{part}-01",
"%Y-%m-%d")` in `ForecastService.parse_month_range`: `strptime` guarantees
`1 <= month <= 12`. -/
structure Ym where
  year : ℕ
  month : ℕ
  hm : 1 ≤ month ∧ month ≤ 12

instance : DecidableEq Ym := fun a b =>
  decidable_of_iff (a.year = b.year ∧ a.month = b.month) (by
    cases a; cases b; simp)

/-- The linear index of a month (months since year 0), used to reason about
the calendar order. -/
def Ym.idx (d : Ym) : ℕ := 12 * d.year + d.month

/-- `datetime` comparison of two first-of-month dates: lexicographic on
(year, month). -/
def Ym.dateLe (a b : Ym) : Prop :=
  a.year < b.year ∨ (a.year = b.year ∧ a.month ≤ b.month)

/-- Strict `datetime` comparison of two first-of-month dates. -/
def Ym.dateLt (a b : Ym) : Prop :=
  a.year < b.year ∨ (a.year = b.year ∧ a.month < b.month)

instance : DecidableRel Ym.dateLe := fun a b => by
  unfold Ym.dateLe; infer_instance

instance : DecidableRel Ym.dateLt := fun a b => by
  unfold Ym.dateLt; infer_instance

/-- The month increment of `ForecastService.parse_month_range`: December
wraps to January of the following year. -/
def nextMonth (d : Ym) : Ym :=
  if h : d.month = 12 then ⟨d.year + 1, 1, by omega⟩
  else ⟨d.year, d.month + 1, by have := d.hm; omega⟩

theorem idx_nextMonth (d : Ym) : (nextMonth d).idx = d.idx + 1 := by
  unfold nextMonth
  split <;> simp [Ym.idx] <;> omega

theorem dateLe_iff_idx (a b : Ym) : a.dateLe b ↔ a.idx ≤ b.idx := by
  have ha := a.hm; have hb := b.hm
  unfold Ym.dateLe Ym.idx
  omega

theorem dateLt_iff_idx (a b : Ym) : a.dateLt b ↔ a.idx < b.idx := by
  have ha := a.hm; have hb := b.hm
  unfold Ym.dateLt Ym.idx
  omega

/-- The accumulation loop of `ForecastService.parse_month_range`: append the
current month and step forward while `current <= end_date`. -/
def monthSeq (c e : Ym) : List Ym :=
  if c.dateLe e then c :: monthSeq (nextMonth c) e else []
termination_by e.idx + 1 - c.idx
decreasing_by
  rename_i h
  rw [dateLe_iff_idx] at h
  rw [idx_nextMonth]
  omega

/-- `ForecastService.parse_month_range` (lines 33-55), after the boundary
concerns of splitting on `:` and `strptime`-validating the two parts: raise
`ValueError` when the start month is strictly after the end month, and
otherwise collect the inclusive ascending month sequence. -/
def parse_month_range (s e : Ym) : Except String (List Ym) :=
  if e.dateLt s then .error "Start month must be before end month"
  else .ok (monthSeq s e)

/-- Modelled from the spec: the error taxonomy of the metric filter
expression parser (§4.2, §7).  The parser itself (the validator behind
`ForecastQuery.metric_filters`) is referenced by the repository's tests and
by `DataLoader.get_forecasts`, but its defining module is not present under
`src/`. -/
inductive FilterError where
  | InvalidFilterSyntax
  | UnknownMetric (name : String)
  | InvalidFilterValue (raw : String)
deriving DecidableEq, Repr

/-- `str.split(sep)` for a one-character separator, on character lists
(Python split semantics: adjacent separators produce empty fields). -/
def splitOn1 (sep : Char) : List Char → List (List Char)
  | [] => [[]]
  | c :: rest =>
    if c = sep then [] :: splitOn1 sep rest
    else
      match splitOn1 sep rest with
      | [] => [[c]]
      | g :: gs => (c :: g) :: gs

/-- `str.split(sep)` for a two-character separator, on character lists. -/
def splitOn2 (s1 s2 : Char) : List Char → List (List Char)
  | [] => [[]]
  | [c] => [[c]]
  | c :: c' :: rest =>
    if c = s1 && c' = s2 then
      [] :: splitOn2 s1 s2 rest
    else
      match splitOn2 s1 s2 (c' :: rest) with
      | [] => [[c]]
      | g :: gs => (c :: g) :: gs

/-- `str.split(op)` for the operator tokens of the filter grammar (all of
which have one or two characters). -/
def opSplit (op : List Char) (l : List Char) : List (List Char) :=
  match op with
  | [a] => splitOn1 a l
  | [a, b] => splitOn2 a b l
  | _ => [l]

/-- Accumulate a run of decimal digits into a natural number. -/
def digitsToNat (l : List Char) : ℕ :=
  l.foldl (fun acc c => 10 * acc + (c.toNat - '0'.toNat)) 0

/-- Modelled from the spec: `float(value)` restricted to finite decimal
literals (§4.2 requires the value segment to parse as a finite float) —
an optional sign, then digits with an optional fractional part; at least
one digit must be present. -/
def parseFloatQ (s : List Char) : Option ℚ :=
  let (neg, body) :=
    match s with
    | '-' :: rest => (true, rest)
    | '+' :: rest => (false, rest)
    | _ => (false, s)
  let intPart := body.takeWhile Char.isDigit
  let rest := body.dropWhile Char.isDigit
  let mk (q : ℚ) : Option ℚ := some (if neg then -q else q)
  match rest with
  | [] => if intPart.isEmpty then none else mk (digitsToNat intPart)
  | '.' :: frac =>
    if frac.all Char.isDigit && !(intPart.isEmpty && frac.isEmpty) then
      mk (mkRat (digitsToNat intPart * 10 ^ frac.length + digitsToNat frac)
            (10 ^ frac.length))
    else none
  | _ => none

/-- The operator list of the metric filter grammar, two-character operators
first (§4.2). -/
def operatorCandidates : List (List Char) :=
  [['>', '='], ['<', '='], ['>'], ['<']]

/-- Decode an operator token into the tagged variant. -/
def opOfChars (op : List Char) : ComparisonOperator :=
  if op = ['>', '='] then .gte
  else if op = ['<', '='] then .lte
  else if op = ['>'] then .gt
  else .lt

/-- Find the first candidate operator occurring in the expression. -/
def findOperator : List (List Char) → List Char → Option (List Char)
  | [], _ => none
  | op :: rest, expr =>
    if 2 ≤ (opSplit op expr).length then some op
    else findOperator rest expr

/-- Modelled from the spec: the metric filter expression parser (§4.2).
Try `>=`, `<=`, `>`, `<` in that order; split the expression on the first
operator found; exactly two parts are required (`InvalidFilterSyntax`,
also raised when no operator occurs); the left part must be a catalog
metric (`UnknownMetric`) and the right part must parse as a float
(`InvalidFilterValue`). -/
def parse_metric_filter (expr : String) : Except FilterError MetricConstraint :=
  match findOperator operatorCandidates expr.toList with
  | none => .error .InvalidFilterSyntax
  | some op =>
    match opSplit op expr.toList with
    | [metricCs, valueCs] =>
      match MetricName.ofString (String.mk metricCs) with
      | none => .error (.UnknownMetric (String.mk metricCs))
      | some m =>
        match parseFloatQ valueCs with
        | none => .error (.InvalidFilterValue (String.mk valueCs))
        | some v => .ok ⟨m, opOfChars op, v⟩
    | _ => .error .InvalidFilterSyntax

/-- A JSON-like Python value, used to model the dictionaries the summary
endpoint returns. -/
inductive PyVal where
  | int (n : ℤ)
  | rat (q : ℚ)
  | str (s : String)
  | list (xs : List PyVal)
  | dict (xs : List (String × PyVal))

/-- First-occurrence deduplication, the semantics of collecting values into
a Python `set` (`pandas.unique` also keeps first occurrences). -/
def uniqueFirst {α : Type} [DecidableEq α] (l : List α) : List α :=
  go [] l
where
  go (seen : List α) : List α → List α
    | [] => []
    | a :: rest =>
      if seen.contains a then go seen rest
      else a :: go (a :: seen) rest

/-- `sorted(<set of strings>)`: the ascending list of the distinct
values. -/
def sortedDistinct (l : List String) : List String :=
  (uniqueFirst l).insertionSort (· ≤ ·)

/-- Python `round(x, 2)` on exact values: round half to even at the second
decimal place. -/
def round2 (q : ℚ) : ℚ :=
  let x := q * 100
  let f := Int.floor x
  let r := x - (f : ℚ)
  let n : ℤ :=
    if r < mkRat 1 2 then f
    else if mkRat 1 2 < r then f + 1
    else if f % 2 = 0 then f else f + 1
  (n : ℚ) / 100

/-- The running statistics of `ForecastService.get_forecast_summary`:
`total_map`, and the running min/max where `none` models the initial
`float("inf")` / `float("-inf")` sentinels. -/
structure SumSt where
  total : ℚ
  minv : Option ℚ
  maxv : Option ℚ

/-- The aggregation loop of `ForecastService.get_forecast_summary` (lines
101-109).  `hasattr(forecast.metrics, "map")` is `True` for every pydantic
model instance (the field always exists, possibly holding `None`), so the
loop unconditionally executes `total_map += forecast.metrics.map`, which
raises `TypeError` when the field holds `None`. -/
def sumLoop : List GridCellForecast → SumSt → Except String SumSt
  | [], st => .ok st
  | f :: fs, st =>
    match f.metrics.map with
    | none => .error "TypeError: unsupported operand type(s) for +=: 'float' and 'NoneType'"
    | some m =>
      sumLoop fs
        ⟨st.total + m,
         some (match st.minv with | none => m | some x => min x m),
         some (match st.maxv with | none => m | some x => max x m)⟩

/-- `ForecastService.get_forecast_summary` (lines 88-123).  The empty branch
returns the literal dictionary of line 91 (whose `grid_cells` is an empty
list and which has no `metrics_summary` key); the non-empty branch runs the
aggregation loop and divides the total by the number of forecasts. -/
def get_forecast_summary (forecasts : List GridCellForecast) :
    Except String (List (String × PyVal)) :=
  if forecasts.isEmpty then
    .ok [("count", .int 0), ("countries", .list []), ("months", .list []),
         ("grid_cells", .list [])]
  else do
    let st ← sumLoop forecasts ⟨0, none, none⟩
    let avg := st.total / (forecasts.length : ℚ)
    .ok [("count", .int forecasts.length),
         ("countries", .list ((sortedDistinct (forecasts.map (·.country_id))).map .str)),
         ("months", .list ((sortedDistinct (forecasts.map (·.month))).map .str)),
         ("grid_cells", .int (uniqueFirst (forecasts.map (·.grid_id))).length),
         ("metrics_summary", .dict
           [("avg_map", .rat (round2 avg)),
            ("min_map", .rat (match st.minv with | some m => round2 m | none => 0)),
            ("max_map", .rat (match st.maxv with | some m => round2 m | none => 0))])]

/-- One entry of the months-metadata listing (`MonthMetadata` in
`app/models/forecast.py`). -/
structure MonthEntry where
  month : String
  forecast_count : ℕ
  countries : List String
deriving DecidableEq, Repr

/-- The sort key relation of `sorted(months_data, key=...)`: ascending by
month string. -/
def monthEntryLe (a b : MonthEntry) : Prop := a.month ≤ b.month

instance : DecidableRel monthEntryLe := fun a b =>
  (inferInstance : Decidable (a.month ≤ b.month))

instance : IsTotal MonthEntry monthEntryLe :=
  ⟨fun a b => le_total a.month b.month⟩

instance : IsTrans MonthEntry monthEntryLe :=
  ⟨fun _ _ _ h1 h2 => le_trans h1 h2⟩

/-- `DataLoader.get_available_months` (lines 388-402): one entry per
distinct month of the frame — row count and distinct countries of that
month — sorted ascending by month string. -/
def get_available_months (rows : List Row) : List MonthEntry :=
  let entries := (uniqueFirst (rows.map (·.month))).map (fun m =>
    let mrows := rows.filter (fun r => decide (r.month = m))
    ⟨m, mrows.length, uniqueFirst (mrows.map (·.country_id))⟩)
  entries.insertionSort monthEntryLe

theorem Ym.idx_inj {a b : Ym} (h : a.idx = b.idx) : a = b := by
  have ha := a.hm; have hb := b.hm
  cases a; cases b
  unfold Ym.idx at h
  simp only [Ym.mk.injEq]
  simp only at h ha hb
  omega

theorem monthSeq_map_idx (s e : Ym) :
    (monthSeq s e).map Ym.idx = List.range' s.idx (e.idx + 1 - s.idx) := by
  generalize hn : e.idx + 1 - s.idx = n
  induction n generalizing s with
  | zero =>
    rw [monthSeq]
    have h : ¬ s.dateLe e := by rw [dateLe_iff_idx]; omega
    simp [h]
  | succ k ih =>
    rw [monthSeq]
    have h : s.dateLe e := by rw [dateLe_iff_idx]; omega
    rw [if_pos h]
    have h2 : e.idx + 1 - (nextMonth s).idx = k := by rw [idx_nextMonth]; omega
    simp only [List.map_cons, ih (nextMonth s) h2, idx_nextMonth, List.range'_succ]

theorem mem_monthSeq (s e : Ym) (m : Ym) :
    m ∈ monthSeq s e ↔ s.idx ≤ m.idx ∧ m.idx ≤ e.idx := by
  constructor
  · intro hm
    have : m.idx ∈ (monthSeq s e).map Ym.idx := List.mem_map_of_mem _ hm
    rw [monthSeq_map_idx, List.mem_range'] at this
    omega
  · intro ⟨h1, h2⟩
    have : m.idx ∈ List.range' s.idx (e.idx + 1 - s.idx) := by
      rw [List.mem_range'_1]
      exact ⟨h1, by omega⟩
    rw [← monthSeq_map_idx, List.mem_map] at this
    obtain ⟨x, hx, hidx⟩ := this
    exact (Ym.idx_inj hidx) ▸ hx

theorem monthSeq_pairwise (s e : Ym) : (monthSeq s e).Pairwise Ym.dateLt := by
  have h := List.pairwise_lt_range' s.idx (e.idx + 1 - s.idx) 1 (by norm_num)
  rw [← monthSeq_map_idx, List.pairwise_map] at h
  exact h.imp (fun hab => (dateLt_iff_idx _ _).mpr hab)

theorem monthSeq_self (s : Ym) : monthSeq s s = [s] := by
  rw [monthSeq]
  have h : s.dateLe s := by rw [dateLe_iff_idx]
  rw [if_pos h, monthSeq]
  have h2 : ¬ (nextMonth s).dateLe s := by
    rw [dateLe_iff_idx, idx_nextMonth]; omega
  rw [if_neg h2]

/-- C2: for start <= end, the month range expands to the inclusive,
ascending, contiguous sequence of months from start to end (with December
wrapping to January via `nextMonth`); a range with start = end yields
exactly `[start]`; and expansion fails with the `InvalidRangeOrder` error
exactly when start is strictly after end. -/
theorem month_range_expansion_correct (s e : Ym) :
    (¬ e.dateLt s →
      parse_month_range s e = .ok (monthSeq s e) ∧
      (monthSeq s e).map Ym.idx = List.range' s.idx (e.idx + 1 - s.idx) ∧
      (∀ m : Ym, m ∈ monthSeq s e ↔ s.idx ≤ m.idx ∧ m.idx ≤ e.idx) ∧
      (monthSeq s e).Pairwise Ym.dateLt) ∧
    parse_month_range s s = .ok [s] ∧
    (e.dateLt s →
      parse_month_range s e = .error "Start month must be before end month") := by
  refine ⟨fun h => ⟨?_, monthSeq_map_idx s e, mem_monthSeq s e,
    monthSeq_pairwise s e⟩, ?_, fun h => ?_⟩
  · unfold parse_month_range
    rw [if_neg h]
  · unfold parse_month_range
    have hs : ¬ s.dateLt s := by rw [dateLt_iff_idx]; omega
    rw [if_neg hs, monthSeq_self]
  · unfold parse_month_range
    rw [if_pos h]

theorem month_range_expansion_correct_witness :
    parse_month_range ⟨2023, 11, by omega⟩ ⟨2024, 2, by omega⟩ =
      .ok (monthSeq ⟨2023, 11, by omega⟩ ⟨2024, 2, by omega⟩) ∧
    (monthSeq ⟨2023, 11, by omega⟩ ⟨2024, 2, by omega⟩).map Ym.idx =
      List.range' 24287 4 := by
  have h := month_range_expansion_correct ⟨2023, 11, by omega⟩ ⟨2024, 2, by omega⟩
  have h1 := h.1 (by decide)
  refine ⟨h1.1, ?_⟩
  have h2 := h1.2.1
  simpa [Ym.idx] using h2

/-- C3: the metric filter expression parser yields `{map, >=, 50.0}` on
`"map>=50"` (two-character operators are tried before their one-character
prefixes), `InvalidFilterSyntax` on `"map>>50"`, `UnknownMetric` on
`"bogus>5"`, and `InvalidFilterValue` on `"map>notanumber"`. -/
theorem filter_expression_parse_examples :
    parse_metric_filter "map>=50" = .ok ⟨.map, .gte, 50⟩ ∧
    parse_metric_filter "map>>50" = .error .InvalidFilterSyntax ∧
    parse_metric_filter "bogus>5" = .error (.UnknownMetric "bogus") ∧
    parse_metric_filter "map>notanumber" =
      .error (.InvalidFilterValue "notanumber") := by
  refine ⟨by decide, by decide, by decide, by decide⟩

theorem MetricName.mem_all (n : MetricName) : n ∈ MetricName.all := by
  cases n <;> simp [MetricName.all]

theorem MetricName.value_injective : ∀ (a b : MetricName),
    a.value = b.value → a = b := by
  intro a b h
  cases a <;> cases b <;> first | rfl | (exact absurd h (by decide))

theorem checkNonNeg_ok_iff (name : String) (v : Option ℚ) :
    checkNonNeg name v = .ok () ↔ ∀ x, v = some x → 0 ≤ x := by
  cases v with
  | none => simp [checkNonNeg]
  | some x =>
    by_cases h : x < 0
    · simp only [checkNonNeg, if_pos h]
      constructor
      · intro hc; exact absurd hc (by simp)
      · intro hall; have := hall x rfl; linarith
    · simp only [checkNonNeg, if_neg h]
      constructor
      · intro _ y hy
        injection hy with hy
        subst hy
        exact le_of_not_lt h
      · intro _; trivial

theorem checkUnit_ok_iff (name : String) (v : Option ℚ) :
    checkUnit name v = .ok () ↔ ∀ x, v = some x → 0 ≤ x ∧ x ≤ 1 := by
  cases v with
  | none => simp [checkUnit]
  | some x =>
    by_cases h : x < 0
    · simp only [checkUnit, if_pos h]
      constructor
      · intro hc; exact absurd hc (by simp)
      · intro hall; have := (hall x rfl).1; linarith
    · by_cases h2 : 1 < x
      · simp only [checkUnit, if_neg h, if_pos h2]
        constructor
        · intro hc; exact absurd hc (by simp)
        · intro hall; have := (hall x rfl).2; linarith
      · simp only [checkUnit, if_neg h, if_neg h2]
        constructor
        · intro _ y hy
          injection hy with hy
          subst hy
          exact ⟨le_of_not_lt h, le_of_not_lt h2⟩
        · intro _; trivial

theorem checkCiHigh_ok_iff (hn ln : String) (high low : Option ℚ) :
    checkCiHigh hn ln high low = .ok () ↔
      ∀ l h, low = some l → high = some h → l ≤ h := by
  cases high with
  | none => simp [checkCiHigh]
  | some hv =>
    cases low with
    | none => simp [checkCiHigh]
    | some lv =>
      by_cases h : hv < lv
      · simp only [checkCiHigh, if_pos h]
        constructor
        · intro hc; exact absurd hc (by simp)
        · intro hall; have := hall lv hv rfl rfl; linarith
      · simp only [checkCiHigh, if_neg h]
        constructor
        · intro _ l hh hl hh2
          injection hl with hl
          injection hh2 with hh2
          subst hl; subst hh2
          exact le_of_not_lt h
        · intro _; trivial

theorem runChecks_ok_iff (l : List (Except String Unit)) :
    runChecks l = .ok () ↔ ∀ c ∈ l, c = .ok () := by
  induction l with
  | nil => simp [runChecks]
  | cons c rest ih =>
    cases c with
    | ok u => cases u; simp [runChecks, ih]
    | error e => simp [runChecks]

theorem runChecks_err (l : List (Except String Unit))
    (h : ∃ c ∈ l, c ≠ .ok ()) : ∃ e, runChecks l = .error e := by
  cases hr : runChecks l with
  | error e => exact ⟨e, rfl⟩
  | ok u =>
    cases u
    rw [runChecks_ok_iff] at hr
    obtain ⟨c, hc, hne⟩ := h
    exact absurd (hr c hc) hne

theorem allNone_iff (f : MetricName → Option ℚ) :
    MetricName.all.all (fun n => (f n).isNone) = true ↔ ∀ n, f n = none := by
  rw [List.all_eq_true]
  constructor
  · intro h n
    have := h n (MetricName.mem_all n)
    simpa [Option.isNone_iff_eq_none] using this
  · intro h n _
    simp [h n]

theorem mkForecastMetrics_ok_iff (f : MetricName → Option ℚ)
    (fm : ForecastMetrics) :
    mkForecastMetrics f = .ok fm ↔
      runChecks (metricChecks f) = .ok () ∧ (¬ ∀ n, f n = none) ∧
      fm = ⟨f .map, f .ci_50_low, f .ci_50_high, f .ci_90_low, f .ci_90_high,
            f .ci_99_low, f .ci_99_high, f .prob_0, f .prob_1, f .prob_10,
            f .prob_100, f .prob_1000, f .prob_10000⟩ := by
  unfold mkForecastMetrics
  cases hr : runChecks (metricChecks f) with
  | error e => simp
  | ok u =>
    cases u
    by_cases hall : MetricName.all.all (fun n => (f n).isNone) = true
    · rw [if_pos hall]
      rw [allNone_iff] at hall
      simp [hall]
    · rw [if_neg hall]
      have h2 : ¬ ∀ n, f n = none := fun h => hall ((allNone_iff f).mpr h)
      constructor
      · intro h
        injection h with h
        exact ⟨rfl, h2, h.symm⟩
      · rintro ⟨_, _, rfl⟩
        rfl

theorem mkGridCellForecast_ok {g : ℤ} {la lo : ℚ} {ci : String}
    {a1 a2 : Option String} {mo : String} {me : ForecastMetrics}
    {f : GridCellForecast}
    (h : mkGridCellForecast g la lo ci a1 a2 mo me = .ok f) :
    f = ⟨g, la, lo, ci, a1, a2, mo, me⟩ := by
  unfold mkGridCellForecast at h
  repeat' split at h
  all_goals first
    | (injection h with h2; exact h2.symm)
    | (injection h)

/-- The projection function `metrics_data` of `DataLoader.get_forecasts`:
the keyword argument for field `n` is present exactly when `n` is selected
and its column exists in the schema. -/
def projFun (cols selected : List String) (r : Row) (n : MetricName) : Option ℚ :=
  if selected.contains n.value && cols.contains n.value then some (r.mval n)
  else none

theorem buildForecast_ok {cols selected : List String} {r : Row}
    {f : GridCellForecast} (h : buildForecast cols selected r = .ok f) :
    ∃ fm, mkForecastMetrics (projFun cols selected r) = .ok fm ∧
      f = ⟨r.grid_id, r.latitude, r.longitude, r.country_id, r.admin_1_id,
           r.admin_2_id, r.month, fm⟩ := by
  unfold buildForecast at h
  cases hm : mkForecastMetrics (fun n =>
      if selected.contains n.value && cols.contains n.value then some (r.mval n)
      else none) with
  | error e =>
    rw [hm] at h
    simp [Bind.bind, Except.bind] at h
  | ok fm =>
    rw [hm] at h
    simp only [Bind.bind, Except.bind] at h
    exact ⟨fm, hm, mkGridCellForecast_ok h⟩

theorem buildAll_mem {cols selected : List String} :
    ∀ {rows : List Row} {fs : List GridCellForecast},
      buildAll cols selected rows = .ok fs →
      ∀ f ∈ fs, ∃ r ∈ rows, buildForecast cols selected r = .ok f := by
  intro rows
  induction rows with
  | nil =>
    intro fs h f hf
    unfold buildAll at h
    injection h with h
    subst h
    simp at hf
  | cons r rs ih =>
    intro fs h f hf
    unfold buildAll at h
    cases hb : buildForecast cols selected r with
    | error e =>
      rw [hb] at h
      simp [Bind.bind, Except.bind] at h
    | ok f0 =>
      rw [hb] at h
      cases hrest : buildAll cols selected rs with
      | error e =>
        rw [hrest] at h
        simp [Bind.bind, Except.bind] at h
      | ok fs0 =>
        rw [hrest] at h
        simp only [Bind.bind, Except.bind] at h
        injection h with h
        subst h
        rcases List.mem_cons.mp hf with hf | hf
        · subst hf
          exact ⟨r, List.mem_cons_self r rs, hb⟩
        · obtain ⟨r', hr', hb'⟩ := ih hrest f hf
          exact ⟨r', List.mem_cons_of_mem r hr', hb'⟩

theorem contains_iff_mem {α : Type} [DecidableEq α] (l : List α) (a : α) :
    l.contains a = true ↔ a ∈ l := by
  simp [List.contains, List.elem_iff]

/-- Whether a step is the failing kind. -/
def isFailStep : StepKind → Bool
  | .fail _ => true
  | .filt _ => false

/-- The row predicate a step contributes (failing steps contribute the
trivial predicate; they never reach the filtering). -/
def stepPredHold (r : Row) : StepKind → Bool
  | .filt p => p r
  | .fail _ => true

/-- The conjunction of the predicates of a list of steps. -/
def predsHold (l : List StepKind) (r : Row) : Bool :=
  l.all (stepPredHold r)

/-- The message of the first failing step, if any. -/
def firstFailMsg : List StepKind → Option String
  | [] => none
  | .fail e :: _ => some e
  | .filt _ :: rest => firstFailMsg rest

theorem runSteps_char (l : List StepKind) (rows : List Row) :
    runSteps l rows = match firstFailMsg l with
      | some e => .error e
      | none => .ok (rows.filter (predsHold l)) := by
  induction l generalizing rows with
  | nil =>
    simp only [runSteps, firstFailMsg]
    rw [List.filter_eq_self.mpr]
    intro a _
    rfl
  | cons s rest ih =>
    cases s with
    | fail e => simp [runSteps, StepKind.run, firstFailMsg]
    | filt p =>
      simp only [runSteps, StepKind.run, firstFailMsg]
      rw [ih (rows.filter p)]
      cases hff : firstFailMsg rest with
      | some e => rfl
      | none =>
        simp only []
        rw [List.filter_filter]
        congr 1
        apply List.filter_congr
        intro r _
        simp [predsHold, stepPredHold, Bool.and_comm]

theorem all_perm_eq {l l' : List StepKind} (h : l.Perm l') (g : StepKind → Bool) :
    l.all g = l'.all g := by
  induction h with
  | nil => rfl
  | cons x _ ih => simp [List.all_cons, ih]
  | swap x y l => simp [List.all_cons, ← Bool.and_assoc, Bool.and_comm]
  | trans _ _ ih1 ih2 => rw [ih1, ih2]

theorem firstFailMsg_none_iff (l : List StepKind) :
    firstFailMsg l = none ↔ ∀ e, StepKind.fail e ∉ l := by
  induction l with
  | nil => simp [firstFailMsg]
  | cons s rest ih =>
    cases s with
    | fail e =>
      simp only [firstFailMsg]
      constructor
      · intro h
        exact Option.noConfusion h
      · intro h
        exact (h e (List.mem_cons_self _ _)).elim
    | filt p =>
      simp only [firstFailMsg, ih]
      constructor
      · intro h e hmem
        rcases List.mem_cons.mp hmem with hx | hx
        · exact StepKind.noConfusion hx
        · exact h e hx
      · intro h e hmem
        exact h e (List.mem_cons_of_mem _ hmem)

theorem firstFailMsg_some_iff (l : List StepKind)
    (hc : l.countP isFailStep ≤ 1) (e : String) :
    firstFailMsg l = some e ↔ StepKind.fail e ∈ l := by
  induction l with
  | nil => simp [firstFailMsg]
  | cons s rest ih =>
    cases s with
    | fail a =>
      have hrest : rest.countP isFailStep = 0 := by
        rw [List.countP_cons_of_pos] at hc
        · omega
        · rfl
      have hnofail : ∀ x, StepKind.fail x ∉ rest := by
        intro x hx
        have := List.countP_eq_zero.mp hrest _ hx
        simp [isFailStep] at this
      simp only [firstFailMsg, Option.some.injEq, List.mem_cons]
      constructor
      · intro h
        exact Or.inl (by rw [h])
      · intro h
        rcases h with h | h
        · injection h with h
          exact h.symm
        · exact absurd h (hnofail e)
    | filt p =>
      have hc2 : rest.countP isFailStep ≤ 1 := by
        rw [List.countP_cons_of_neg] at hc
        · exact hc
        · simp [isFailStep]
      simp only [firstFailMsg, ih hc2, List.mem_cons]
      constructor
      · exact fun h => Or.inr h
      · intro h
        rcases h with h | h
        · exact StepKind.noConfusion h
        · exact h

theorem runSteps_perm {l l' : List StepKind} (h : l.Perm l')
    (hc : l.countP isFailStep ≤ 1) (rows : List Row) :
    runSteps l rows = runSteps l' rows := by
  have hc' : l'.countP isFailStep ≤ 1 := by
    rw [← h.countP_eq]
    exact hc
  rw [runSteps_char, runSteps_char]
  cases hff : firstFailMsg l with
  | some e =>
    have : StepKind.fail e ∈ l := (firstFailMsg_some_iff l hc e).mp hff
    have : StepKind.fail e ∈ l' := h.mem_iff.mp this
    rw [(firstFailMsg_some_iff l' hc' e).mpr this]
  | none =>
    have hno : ∀ e, StepKind.fail e ∉ l := (firstFailMsg_none_iff l).mp hff
    have hno' : ∀ e, StepKind.fail e ∉ l' := fun e he => hno e (h.mem_iff.mpr he)
    rw [(firstFailMsg_none_iff l').mpr hno']
    simp only []
    congr 1
    apply List.filter_congr
    intro r _
    exact all_perm_eq h (stepPredHold r)

theorem applyConstraints_eq_kind (cols : List String) :
    ∀ (cs : List MetricConstraint) (rows : List Row),
      applyConstraints cols cs rows = (constraintsKind cols cs).run rows := by
  intro cs
  induction cs with
  | nil =>
    intro rows
    simp only [applyConstraints, constraintsKind, List.find?, StepKind.run]
    rw [List.filter_eq_self.mpr]
    intro a _
    rfl
  | cons c rest ih =>
    intro rows
    cases hcol : cols.contains c.metric.value with
    | true =>
      rw [applyConstraints, if_pos hcol, ih]
      unfold constraintsKind
      rw [List.find?_cons]
      have hp : (!cols.contains c.metric.value) = false := by
        rw [hcol]
        rfl
      rw [hp]
      cases hf : List.find? (fun c => !cols.contains c.metric.value) rest with
      | some c' => rfl
      | none =>
        show Except.ok _ = Except.ok _
        rw [List.filter_filter]
        congr 1
        apply List.filter_congr
        intro r _
        simp [List.all_cons, Bool.and_comm]
    | false =>
      have hcol2 : ¬ (cols.contains c.metric.value = true) := by
        rw [hcol]
        exact Bool.false_ne_true
      rw [applyConstraints, if_neg hcol2]
      unfold constraintsKind
      rw [List.find?_cons]
      have hp : (!cols.contains c.metric.value) = true := by
        rw [hcol]
        rfl
      rw [hp]
      rfl

theorem runSteps_cons_ok {s : StepKind} {rows rows' : List Row}
    (h : s.run rows = .ok rows') (rest : List StepKind) :
    runSteps (s :: rest) rows = runSteps rest rows' := by
  simp [runSteps, h]

theorem runSteps_singleton (s : StepKind) (rows : List Row) :
    runSteps [s] rows = s.run rows := by
  cases h : s.run rows <;> simp [runSteps, h]

theorem countryStep_run (country : Option String) (rows : List Row) :
    (countryStep country).run rows = .ok (match country with
      | some c => if c = "" then rows
                  else rows.filter (fun r => decide (r.country_id = c))
      | none => rows) := by
  cases country with
  | none =>
    simp only [countryStep, StepKind.run]
    rw [List.filter_eq_self.mpr (fun a _ => rfl)]
  | some c =>
    by_cases h : c = ""
    · simp only [countryStep, StepKind.run, if_pos h]
      rw [List.filter_eq_self.mpr (fun a _ => rfl)]
    · simp only [countryStep, StepKind.run, if_neg h]

theorem gridStep_run (grid_ids : Option (List ℤ)) (rows : List Row) :
    (gridStep grid_ids).run rows = .ok (match grid_ids with
      | some ids => if ids.isEmpty then rows
                    else rows.filter (fun r => ids.contains r.grid_id)
      | none => rows) := by
  cases grid_ids with
  | none =>
    simp only [gridStep, StepKind.run]
    rw [List.filter_eq_self.mpr (fun a _ => rfl)]
  | some ids =>
    by_cases h : ids.isEmpty
    · simp only [gridStep, StepKind.run, if_pos h]
      rw [List.filter_eq_self.mpr (fun a _ => rfl)]
    · simp only [gridStep, StepKind.run, if_neg h]

theorem monthStep_run (months : Option (List String)) (rows : List Row) :
    (monthStep months).run rows = .ok (match months with
      | some ms => if ms.isEmpty then rows
                   else rows.filter (fun r => ms.contains r.month)
      | none => rows) := by
  cases months with
  | none =>
    simp only [monthStep, StepKind.run]
    rw [List.filter_eq_self.mpr (fun a _ => rfl)]
  | some ms =>
    by_cases h : ms.isEmpty
    · simp only [monthStep, StepKind.run, if_pos h]
      rw [List.filter_eq_self.mpr (fun a _ => rfl)]
    · simp only [monthStep, StepKind.run, if_neg h]

theorem constraintsStep_run (cols : List String)
    (mcs : Option (List MetricConstraint)) (rows : List Row) :
    (constraintsStep cols mcs).run rows = (match mcs with
      | some cs => if cs.isEmpty then .ok rows else applyConstraints cols cs rows
      | none => .ok rows) := by
  cases mcs with
  | none =>
    simp only [constraintsStep, StepKind.run]
    rw [List.filter_eq_self.mpr (fun a _ => rfl)]
  | some cs =>
    by_cases h : cs.isEmpty
    · simp only [constraintsStep, if_pos h, StepKind.run]
      rw [List.filter_eq_self.mpr (fun a _ => rfl)]
    · simp only [constraintsStep, if_neg h]
      rw [applyConstraints_eq_kind]

theorem filterRows_eq_runSteps (ds : Dataset) (country : Option String)
    (gids : Option (List ℤ)) (months : Option (List String))
    (mcs : Option (List MetricConstraint)) :
    filterRows ds country gids months mcs =
      runSteps (filterSteps ds.cols country gids months mcs) ds.rows := by
  rw [filterSteps, runSteps_cons_ok (countryStep_run country ds.rows),
    runSteps_cons_ok (gridStep_run gids _), runSteps_cons_ok (monthStep_run months _),
    runSteps_singleton, constraintsStep_run]
  rfl

theorem countP_filterSteps (cols : List String) (country : Option String)
    (gids : Option (List ℤ)) (months : Option (List String))
    (mcs : Option (List MetricConstraint)) :
    (filterSteps cols country gids months mcs).countP isFailStep ≤ 1 := by
  have h1 : isFailStep (countryStep country) = false := by
    cases country with
    | none => rfl
    | some c => by_cases h : c = "" <;> simp [countryStep, h, isFailStep]
  have h2 : isFailStep (gridStep gids) = false := by
    cases gids with
    | none => rfl
    | some ids => by_cases h : ids.isEmpty <;> simp [gridStep, h, isFailStep]
  have h3 : isFailStep (monthStep months) = false := by
    cases months with
    | none => rfl
    | some ms => by_cases h : ms.isEmpty <;> simp [monthStep, h, isFailStep]
  unfold filterSteps
  rw [List.countP_cons, List.countP_cons, List.countP_cons, List.countP_cons,
    List.countP_nil, h1, h2, h3]
  cases h4 : isFailStep (constraintsStep cols mcs) <;> simp

/-- C9: the country, grid-id, month, and metric-constraint steps of the
evaluator are conjunctive (each either filters rows by a predicate or fails
independently of the rows), so running the four steps in any order produces
the same result as the source's order. -/
theorem filter_order_invariant (ds : Dataset) (country : Option String)
    (gids : Option (List ℤ)) (months : Option (List String))
    (mcs : Option (List MetricConstraint)) (l : List StepKind)
    (hperm : l.Perm (filterSteps ds.cols country gids months mcs)) :
    runSteps l ds.rows = filterRows ds country gids months mcs := by
  rw [filterRows_eq_runSteps]
  apply runSteps_perm hperm
  rw [hperm.countP_eq]
  exact countP_filterSteps ds.cols country gids months mcs

/-- Metric values of the first fixture row (the repository's service-test
dataset): `map = 60`, grid id 1, country `074`, month `2024-01`. -/
def demoMval1 : MetricName → ℚ
  | .map => 60
  | .ci_50_low => 45
  | .ci_50_high => 75
  | .ci_90_low => 30
  | .ci_90_high => 90
  | .ci_99_low => 25
  | .ci_99_high => 105
  | .prob_0 => mkRat 1 10
  | .prob_1 => mkRat 9 10
  | .prob_10 => mkRat 1 2
  | .prob_100 => mkRat 1 5
  | .prob_1000 => mkRat 3 20
  | .prob_10000 => mkRat 1 20

/-- Metric values of the second fixture row: `map = 40`, grid id 1,
country `074`, month `2024-02`. -/
def demoMval2 : MetricName → ℚ
  | .map => 40
  | .ci_50_low => 30
  | .ci_50_high => 50
  | .ci_90_low => 20
  | .ci_90_high => 60
  | .ci_99_low => 15
  | .ci_99_high => 70
  | .prob_0 => mkRat 1 5
  | .prob_1 => mkRat 4 5
  | .prob_10 => mkRat 3 10
  | .prob_100 => mkRat 1 10
  | .prob_1000 => mkRat 1 20
  | .prob_10000 => mkRat 1 100

/-- Metric values of the third fixture row: `map = 15`, grid id 2,
country `800`, month `2024-01`. -/
def demoMval3 : MetricName → ℚ
  | .map => 15
  | .ci_50_low => 10
  | .ci_50_high => 20
  | .ci_90_low => 5
  | .ci_90_high => 25
  | .ci_99_low => 2
  | .ci_99_high => 30
  | .prob_0 => mkRat 2 5
  | .prob_1 => mkRat 3 5
  | .prob_10 => mkRat 1 5
  | .prob_100 => mkRat 1 20
  | .prob_1000 => mkRat 1 100
  | .prob_10000 => 0

/-- First fixture row. -/
def demoRow1 : Row :=
  ⟨1, mkRat 111 10, mkRat 72 5, "074", some "074-ADM1-00", some "074-ADM2-00",
   "2024-01", demoMval1⟩

/-- Second fixture row. -/
def demoRow2 : Row :=
  ⟨1, mkRat 111 10, mkRat 72 5, "074", some "074-ADM1-00", some "074-ADM2-00",
   "2024-02", demoMval2⟩

/-- Third fixture row. -/
def demoRow3 : Row :=
  ⟨2, mkRat (-6) 5, mkRat 65 2, "800", some "800-ADM1-00", some "800-ADM2-00",
   "2024-01", demoMval3⟩

/-- The three-row fixture dataset with `map` values `[60, 40, 15]` tagged to
grid ids `[1, 1, 2]`, with all thirteen metric columns in the schema. -/
def demoDataset : Dataset := ⟨ALL_METRIC_NAMES, [demoRow1, demoRow2, demoRow3]⟩

theorem filter_order_invariant_witness :
    runSteps
      [gridStep (some [1]), countryStep (some "074"), monthStep none,
       constraintsStep demoDataset.cols none] demoDataset.rows =
      filterRows demoDataset (some "074") (some [1]) none none :=
  filter_order_invariant demoDataset (some "074") (some [1]) none none _
    (List.Perm.swap (countryStep (some "074")) (gridStep (some [1]))
      [monthStep none, constraintsStep demoDataset.cols none])

/-- The filtered demo row 1 as a `GridCellForecast` with all thirteen
metrics projected. -/
def demoForecast1 : GridCellForecast :=
  ⟨1, mkRat 111 10, mkRat 72 5, "074", some "074-ADM1-00", some "074-ADM2-00",
   "2024-01",
   { map := some 60, ci_50_low := some 45, ci_50_high := some 75,
     ci_90_low := some 30, ci_90_high := some 90, ci_99_low := some 25,
     ci_99_high := some 105, prob_0 := some (mkRat 1 10),
     prob_1 := some (mkRat 9 10), prob_10 := some (mkRat 1 2),
     prob_100 := some (mkRat 1 5), prob_1000 := some (mkRat 3 20),
     prob_10000 := some (mkRat 1 20) }⟩

/-- C1: the metric-constraint loop keeps exactly the rows satisfying every
constraint (conjunction) when every named column is in the schema; on the
fixture dataset the query with constraint `map > 50` returns exactly the
row with `map = 60`; and the loop fails when some constraint names a metric
column missing from the schema. -/
theorem metric_constraint_filtering :
    (∀ (cols : List String) (cs : List MetricConstraint) (rows : List Row),
      (∀ c ∈ cs, c.metric.value ∈ cols) →
      applyConstraints cols cs rows =
        .ok (rows.filter (fun r =>
          cs.all (fun c => c.operator.holds (r.mval c.metric) c.value)))) ∧
    get_forecasts demoDataset none none none none
      (some [⟨.map, .gt, 50⟩]) = .ok [demoForecast1] ∧
    (∀ (cols : List String) (cs : List MetricConstraint) (rows : List Row),
      (∃ c ∈ cs, c.metric.value ∉ cols) →
      ∃ e, applyConstraints cols cs rows = .error e) := by
  refine ⟨?_, by decide, ?_⟩
  · intro cols cs
    induction cs with
    | nil =>
      intro rows _
      simp only [applyConstraints]
      congr 1
      exact (List.filter_eq_self.mpr (fun a _ => rfl)).symm
    | cons c rest ih =>
      intro rows h
      have hc : cols.contains c.metric.value = true :=
        (contains_iff_mem cols _).mpr (h c (List.mem_cons_self c rest))
      rw [applyConstraints, if_pos hc,
        ih _ (fun c' hc' => h c' (List.mem_cons_of_mem c hc'))]
      rw [List.filter_filter]
      congr 1
      apply List.filter_congr
      intro r _
      simp [List.all_cons, Bool.and_comm]
  · intro cols cs
    induction cs with
    | nil =>
      intro rows h
      simp at h
    | cons c rest ih =>
      intro rows h
      cases hc : cols.contains c.metric.value with
      | false =>
        exact ⟨"Metric '" ++ c.metric.value ++ "' is not available for filtering",
          by rw [applyConstraints, if_neg (by rw [hc]; exact Bool.false_ne_true)]⟩
      | true =>
        rw [applyConstraints, if_pos hc]
        apply ih
        obtain ⟨c', hmem, hbad⟩ := h
        rcases List.mem_cons.mp hmem with heq | hmem'
        · subst heq
          exact absurd ((contains_iff_mem cols _).mp hc) hbad
        · exact ⟨c', hmem', hbad⟩

theorem metric_constraint_filtering_witness :
    applyConstraints ALL_METRIC_NAMES [⟨.map, .gt, 50⟩] demoDataset.rows =
      .ok (demoDataset.rows.filter (fun r =>
        [(⟨.map, .gt, 50⟩ : MetricConstraint)].all
          (fun c => c.operator.holds (r.mval c.metric) c.value))) ∧
    (applyConstraints ["month"] [⟨.map, .gt, 50⟩] demoDataset.rows).isOk =
      false :=
  ⟨metric_constraint_filtering.1 ALL_METRIC_NAMES [⟨.map, .gt, 50⟩]
      demoDataset.rows (by decide),
   by
     obtain ⟨e, he⟩ := metric_constraint_filtering.2.2 ["month"]
       [⟨.map, .gt, 50⟩] demoDataset.rows ⟨⟨.map, .gt, 50⟩, by decide, by decide⟩
     rw [he]
     rfl⟩

theorem filterRows_country {ds : Dataset} {gids : Option (List ℤ)}
    {months : Option (List String)} {mcs : Option (List MetricConstraint)}
    {rows : List Row} {s : String} (hs : s ≠ "")
    (h : filterRows ds (some s) gids months mcs = .ok rows) :
    ∀ r ∈ rows, r.country_id = s := by
  rw [filterRows_eq_runSteps, runSteps_char] at h
  cases hff : firstFailMsg (filterSteps ds.cols (some s) gids months mcs) with
  | some e =>
    rw [hff] at h
    exact absurd h (by simp)
  | none =>
    rw [hff] at h
    injection h with h
    subst h
    intro r hr
    have hp := (List.mem_filter.mp hr).2
    have hcountry : stepPredHold r (countryStep (some s)) = true :=
      List.all_eq_true.mp hp _ (by simp [filterSteps])
    simp only [countryStep, if_neg hs, stepPredHold] at hcountry
    exact of_decide_eq_true hcountry

/-- C7 (amended): under any character classifier agreeing with the ASCII
digit test on ASCII characters — as Python's Unicode-aware `str.isdigit`
does — a country string of exactly 3 ASCII digits passes validation and
evaluation then returns only records with that `country_id`; a non-empty
string whose length is not 3, or containing an ASCII character that is not
a digit, fails with the `InvalidCountryCode` error; and the empty string —
being falsy — is returned unchanged by the validator (and the evaluator
skips the country filter for it).  Non-ASCII digit strings such as `"١٢٣"`
are accepted by Python's classifier: see the counterexample. -/
theorem country_code_validation (isdigit : Char → Bool)
    (hascii : ∀ c : Char, c.toNat < 128 → isdigit c = c.isDigit) :
    (∀ s : String, s.toList.all Char.isDigit = true → s.length = 3 →
      validate_country isdigit (some s) = .ok (some s) ∧
      ∀ (ds : Dataset) (gids : Option (List ℤ)) (months : Option (List String))
        (metrics : Option (List MetricName))
        (mcs : Option (List MetricConstraint)) (fs : List GridCellForecast),
          get_forecasts ds (some s) gids months metrics mcs = .ok fs →
          ∀ f ∈ fs, f.country_id = s) ∧
    (∀ s : String, s ≠ "" →
      (s.length ≠ 3 ∨ ∃ c ∈ s.toList, c.toNat < 128 ∧ c.isDigit = false) →
      validate_country isdigit (some s) =
        .error "Country code must be a UN M49 numeric identifier padded to 3 digits") ∧
    validate_country isdigit (some "") = .ok (some "") := by
  refine ⟨?_, ?_, rfl⟩
  · intro s hdig hlen
    have hs : s ≠ "" := by
      intro h
      subst h
      exact absurd hlen (by decide)
    constructor
    · simp only [validate_country, if_neg hs]
      rw [if_pos]
      rw [Bool.and_eq_true]
      refine ⟨?_, decide_eq_true hlen⟩
      rw [List.all_eq_true]
      intro c hc
      have hcd : c.isDigit = true := List.all_eq_true.mp hdig c hc
      rw [hascii c (char_isDigit_ascii hcd)]
      exact hcd
    · intro ds gids months metrics mcs fs h f hf
      unfold get_forecasts at h
      cases hfr : filterRows ds (some s) gids months mcs with
      | error e =>
        rw [hfr] at h
        simp [Bind.bind, Except.bind] at h
      | ok rows =>
        rw [hfr] at h
        simp only [Bind.bind, Except.bind] at h
        obtain ⟨r, hr, hb⟩ := buildAll_mem h f hf
        obtain ⟨fm, _, hf2⟩ := buildForecast_ok hb
        rw [hf2]
        exact filterRows_country hs hfr r hr
  · intro s hne hbad
    simp only [validate_country, if_neg hne]
    rw [if_neg]
    intro hcond
    rw [Bool.and_eq_true] at hcond
    rcases hbad with hlen | ⟨c, hc, hcascii, hcnd⟩
    · exact hlen (of_decide_eq_true hcond.2)
    · have := List.all_eq_true.mp hcond.1 c hc
      rw [hascii c hcascii, hcnd] at this
      exact Bool.false_ne_true this

/-- The second fixture row as a fully projected `GridCellForecast`. -/
def demoForecast2 : GridCellForecast :=
  ⟨1, mkRat 111 10, mkRat 72 5, "074", some "074-ADM1-00", some "074-ADM2-00",
   "2024-02",
   { map := some 40, ci_50_low := some 30, ci_50_high := some 50,
     ci_90_low := some 20, ci_90_high := some 60, ci_99_low := some 15,
     ci_99_high := some 70, prob_0 := some (mkRat 1 5),
     prob_1 := some (mkRat 4 5), prob_10 := some (mkRat 3 10),
     prob_100 := some (mkRat 1 10), prob_1000 := some (mkRat 1 20),
     prob_10000 := some (mkRat 1 100) }⟩

theorem country_code_validation_witness :
    validate_country Char.isDigit (some "074") = .ok (some "074") ∧
    validate_country Char.isDigit (some "12a") =
      .error "Country code must be a UN M49 numeric identifier padded to 3 digits" ∧
    demoForecast1.country_id = "074" :=
  ⟨((country_code_validation Char.isDigit (fun _ _ => rfl)).1 "074"
      (by decide) (by decide)).1,
   (country_code_validation Char.isDigit (fun _ _ => rfl)).2.1 "12a"
      (by decide) (by decide),
   ((country_code_validation Char.isDigit (fun _ _ => rfl)).1 "074"
      (by decide) (by decide)).2 demoDataset
     none none none none [demoForecast1, demoForecast2] (by decide)
     demoForecast1 (by decide)⟩

/-- C7 counterexample to the claim as stated: validation does not fail on
every string that is not exactly 3 ASCII digits.  The empty string is
returned unchanged (the `if not v` guard short-circuits before the digit
check), and under Python's Unicode-aware `str.isdigit` — instantiated here
by `unicodeAwareIsDigit`, which has the same ASCII behavior
(`unicodeAwareIsDigit_ascii`) and accepts the Arabic-Indic digits, as
`str.isdigit` does — the three-character string `"١٢٣"` is accepted too. -/
theorem country_code_counterexample :
    validate_country Char.isDigit (some "") = .ok (some "") ∧
    validate_country unicodeAwareIsDigit (some "١٢٣") = .ok (some "١٢٣") ∧
    unicodeAwareIsDigit '١' = true :=
  ⟨rfl, by decide, by decide⟩

/-- The three confidence-interval bound pairs. -/
def ciPairs : List (MetricName × MetricName) :=
  [(.ci_50_low, .ci_50_high), (.ci_90_low, .ci_90_high),
   (.ci_99_low, .ci_99_high)]

/-- The six exceedance-probability fields. -/
def probNames : List MetricName :=
  [.prob_0, .prob_1, .prob_10, .prob_100, .prob_1000, .prob_10000]

/-- The seven non-probability fields (validated with `ge=0` only). -/
def nonProbNames : List MetricName :=
  [.map, .ci_50_low, .ci_50_high, .ci_90_low, .ci_90_high, .ci_99_low,
   .ci_99_high]

theorem mk_err_of_check {f : MetricName → Option ℚ} {c : Except String Unit}
    (hc : c ∈ metricChecks f) (hbad : c ≠ .ok ()) :
    ∃ e, mkForecastMetrics f = .error e := by
  unfold mkForecastMetrics
  obtain ⟨e, he⟩ := runChecks_err _ ⟨c, hc, hbad⟩
  rw [he]
  exact ⟨e, rfl⟩

/-- C8: constructing `ForecastMetrics` fails whenever a present upper
confidence bound is strictly below its present lower bound, whenever a
probability field leaves `[0, 1]`, whenever a non-probability field is
negative, or whenever no field at all is present; and it succeeds —
returning exactly the given fields — when all of these invariants hold. -/
theorem metrics_invariant_enforcement (f : MetricName → Option ℚ) :
    (∀ p ∈ ciPairs, ∀ lv hv, f p.1 = some lv → f p.2 = some hv → hv < lv →
      ∃ e, mkForecastMetrics f = .error e) ∧
    (∀ n ∈ probNames, ∀ v, f n = some v → (v < 0 ∨ 1 < v) →
      ∃ e, mkForecastMetrics f = .error e) ∧
    (∀ n ∈ nonProbNames, ∀ v, f n = some v → v < 0 →
      ∃ e, mkForecastMetrics f = .error e) ∧
    ((∀ n, f n = none) →
      mkForecastMetrics f = .error "At least one metric value must be provided") ∧
    ((∀ p ∈ ciPairs, ∀ lv hv, f p.1 = some lv → f p.2 = some hv → lv ≤ hv) →
     (∀ n ∈ probNames, ∀ v, f n = some v → 0 ≤ v ∧ v ≤ 1) →
     (∀ n ∈ nonProbNames, ∀ v, f n = some v → 0 ≤ v) →
     (∃ n, f n ≠ none) →
     mkForecastMetrics f =
       .ok ⟨f .map, f .ci_50_low, f .ci_50_high, f .ci_90_low, f .ci_90_high,
            f .ci_99_low, f .ci_99_high, f .prob_0, f .prob_1, f .prob_10,
            f .prob_100, f .prob_1000, f .prob_10000⟩) := by
  refine ⟨?_, ?_, ?_, ?_, ?_⟩
  · intro p hp lv hv hl hh hlt
    simp only [ciPairs, List.mem_cons, List.not_mem_nil, or_false] at hp
    rcases hp with rfl | rfl | rfl
    · refine mk_err_of_check (c := checkCiHigh "ci_50_high" "ci_50_low"
        (f .ci_50_high) (f .ci_50_low)) (by simp [metricChecks]) ?_
      intro hok
      exact absurd ((checkCiHigh_ok_iff _ _ _ _).mp hok lv hv hl hh)
        (not_le.mpr hlt)
    · refine mk_err_of_check (c := checkCiHigh "ci_90_high" "ci_90_low"
        (f .ci_90_high) (f .ci_90_low)) (by simp [metricChecks]) ?_
      intro hok
      exact absurd ((checkCiHigh_ok_iff _ _ _ _).mp hok lv hv hl hh)
        (not_le.mpr hlt)
    · refine mk_err_of_check (c := checkCiHigh "ci_99_high" "ci_99_low"
        (f .ci_99_high) (f .ci_99_low)) (by simp [metricChecks]) ?_
      intro hok
      exact absurd ((checkCiHigh_ok_iff _ _ _ _).mp hok lv hv hl hh)
        (not_le.mpr hlt)
  · intro n hn v hv hbad
    simp only [probNames, List.mem_cons, List.not_mem_nil, or_false] at hn
    rcases hn with rfl | rfl | rfl | rfl | rfl | rfl
    case inl =>
      refine mk_err_of_check (c := checkUnit "prob_0" (f .prob_0))
        (by simp [metricChecks]) ?_
      intro hok
      have := (checkUnit_ok_iff _ _).mp hok v hv
      rcases hbad with h | h <;> linarith [this.1, this.2]
    all_goals first
      | (refine mk_err_of_check (c := checkUnit "prob_1" (f .prob_1))
          (by simp [metricChecks]) ?_
         intro hok
         have := (checkUnit_ok_iff _ _).mp hok v hv
         rcases hbad with h | h <;> linarith [this.1, this.2])
      | (refine mk_err_of_check (c := checkUnit "prob_10" (f .prob_10))
          (by simp [metricChecks]) ?_
         intro hok
         have := (checkUnit_ok_iff _ _).mp hok v hv
         rcases hbad with h | h <;> linarith [this.1, this.2])
      | (refine mk_err_of_check (c := checkUnit "prob_100" (f .prob_100))
          (by simp [metricChecks]) ?_
         intro hok
         have := (checkUnit_ok_iff _ _).mp hok v hv
         rcases hbad with h | h <;> linarith [this.1, this.2])
      | (refine mk_err_of_check (c := checkUnit "prob_1000" (f .prob_1000))
          (by simp [metricChecks]) ?_
         intro hok
         have := (checkUnit_ok_iff _ _).mp hok v hv
         rcases hbad with h | h <;> linarith [this.1, this.2])
      | (refine mk_err_of_check (c := checkUnit "prob_10000" (f .prob_10000))
          (by simp [metricChecks]) ?_
         intro hok
         have := (checkUnit_ok_iff _ _).mp hok v hv
         rcases hbad with h | h <;> linarith [this.1, this.2])
  · intro n hn v hv hneg
    simp only [nonProbNames, List.mem_cons, List.not_mem_nil, or_false] at hn
    rcases hn with rfl | rfl | rfl | rfl | rfl | rfl | rfl
    all_goals first
      | (refine mk_err_of_check (c := checkNonNeg "map" (f .map))
          (by simp [metricChecks]) ?_
         intro hok
         exact absurd ((checkNonNeg_ok_iff _ _).mp hok v hv) (not_le.mpr hneg))
      | (refine mk_err_of_check (c := checkNonNeg "ci_50_low" (f .ci_50_low))
          (by simp [metricChecks]) ?_
         intro hok
         exact absurd ((checkNonNeg_ok_iff _ _).mp hok v hv) (not_le.mpr hneg))
      | (refine mk_err_of_check (c := checkNonNeg "ci_50_high" (f .ci_50_high))
          (by simp [metricChecks]) ?_
         intro hok
         exact absurd ((checkNonNeg_ok_iff _ _).mp hok v hv) (not_le.mpr hneg))
      | (refine mk_err_of_check (c := checkNonNeg "ci_90_low" (f .ci_90_low))
          (by simp [metricChecks]) ?_
         intro hok
         exact absurd ((checkNonNeg_ok_iff _ _).mp hok v hv) (not_le.mpr hneg))
      | (refine mk_err_of_check (c := checkNonNeg "ci_90_high" (f .ci_90_high))
          (by simp [metricChecks]) ?_
         intro hok
         exact absurd ((checkNonNeg_ok_iff _ _).mp hok v hv) (not_le.mpr hneg))
      | (refine mk_err_of_check (c := checkNonNeg "ci_99_low" (f .ci_99_low))
          (by simp [metricChecks]) ?_
         intro hok
         exact absurd ((checkNonNeg_ok_iff _ _).mp hok v hv) (not_le.mpr hneg))
      | (refine mk_err_of_check (c := checkNonNeg "ci_99_high" (f .ci_99_high))
          (by simp [metricChecks]) ?_
         intro hok
         exact absurd ((checkNonNeg_ok_iff _ _).mp hok v hv) (not_le.mpr hneg))
  · intro h
    unfold mkForecastMetrics
    have hrun : runChecks (metricChecks f) = .ok () := by
      rw [runChecks_ok_iff]
      intro c hc
      simp only [metricChecks, h, List.mem_cons, List.not_mem_nil, or_false] at hc
      rcases hc with rfl | rfl | rfl | rfl | rfl | rfl | rfl | rfl | rfl | rfl
        | rfl | rfl | rfl | rfl | rfl | rfl <;> rfl
    rw [hrun]
    rw [if_pos ((allNone_iff f).mpr h)]
  · intro hci hprob hnn hsome
    rw [mkForecastMetrics_ok_iff]
    refine ⟨?_, fun hall => (hsome.elim fun n hn => hn (hall n)), rfl⟩
    rw [runChecks_ok_iff]
    intro c hc
    simp only [metricChecks, List.mem_cons, List.not_mem_nil, or_false] at hc
    rcases hc with rfl | rfl | rfl | rfl | rfl | rfl | rfl | rfl | rfl | rfl
      | rfl | rfl | rfl | rfl | rfl | rfl
    · rw [checkNonNeg_ok_iff]
      exact fun x hx => hnn .map (by simp [nonProbNames]) x hx
    · rw [checkNonNeg_ok_iff]
      exact fun x hx => hnn .ci_50_low (by simp [nonProbNames]) x hx
    · rw [checkNonNeg_ok_iff]
      exact fun x hx => hnn .ci_50_high (by simp [nonProbNames]) x hx
    · rw [checkCiHigh_ok_iff]
      exact fun lv hv hl hh => hci (.ci_50_low, .ci_50_high) (by simp [ciPairs]) lv hv hl hh
    · rw [checkNonNeg_ok_iff]
      exact fun x hx => hnn .ci_90_low (by simp [nonProbNames]) x hx
    · rw [checkNonNeg_ok_iff]
      exact fun x hx => hnn .ci_90_high (by simp [nonProbNames]) x hx
    · rw [checkCiHigh_ok_iff]
      exact fun lv hv hl hh => hci (.ci_90_low, .ci_90_high) (by simp [ciPairs]) lv hv hl hh
    · rw [checkNonNeg_ok_iff]
      exact fun x hx => hnn .ci_99_low (by simp [nonProbNames]) x hx
    · rw [checkNonNeg_ok_iff]
      exact fun x hx => hnn .ci_99_high (by simp [nonProbNames]) x hx
    · rw [checkCiHigh_ok_iff]
      exact fun lv hv hl hh => hci (.ci_99_low, .ci_99_high) (by simp [ciPairs]) lv hv hl hh
    · rw [checkUnit_ok_iff]
      exact fun x hx => hprob .prob_0 (by simp [probNames]) x hx
    · rw [checkUnit_ok_iff]
      exact fun x hx => hprob .prob_1 (by simp [probNames]) x hx
    · rw [checkUnit_ok_iff]
      exact fun x hx => hprob .prob_10 (by simp [probNames]) x hx
    · rw [checkUnit_ok_iff]
      exact fun x hx => hprob .prob_100 (by simp [probNames]) x hx
    · rw [checkUnit_ok_iff]
      exact fun x hx => hprob .prob_1000 (by simp [probNames]) x hx
    · rw [checkUnit_ok_iff]
      exact fun x hx => hprob .prob_10000 (by simp [probNames]) x hx

theorem metrics_invariant_enforcement_witness :
    (mkForecastMetrics (fun n => match n with
      | .ci_50_low => some 14 | .ci_50_high => some 7 | _ => none)).isOk =
      false ∧
    (mkForecastMetrics (fun n => match n with
      | .map => some 10 | .prob_0 => some (mkRat 3 2) | _ => none)).isOk =
      false ∧
    (mkForecastMetrics (fun n => match n with
      | .map => some (-1) | _ => none)).isOk = false ∧
    mkForecastMetrics (fun _ => none) =
      .error "At least one metric value must be provided" ∧
    mkForecastMetrics (fun n => match n with | .map => some 10 | _ => none) =
      .ok { map := some 10 } :=
  ⟨by
     obtain ⟨e, he⟩ := (metrics_invariant_enforcement (fun n => match n with
       | .ci_50_low => some 14 | .ci_50_high => some 7 | _ => none)).1
       (.ci_50_low, .ci_50_high) (by simp [ciPairs]) 14 7 rfl rfl (by norm_num)
     rw [he]
     rfl,
   by
     obtain ⟨e, he⟩ := (metrics_invariant_enforcement (fun n => match n with
       | .map => some 10 | .prob_0 => some (mkRat 3 2) | _ => none)).2.1
       .prob_0 (by simp [probNames]) (mkRat 3 2) rfl
       (Or.inr (by norm_num [mkRat]))
     rw [he]
     rfl,
   by
     obtain ⟨e, he⟩ := (metrics_invariant_enforcement (fun n => match n with
       | .map => some (-1) | _ => none)).2.2.1 .map
       (by simp [nonProbNames]) (-1) rfl (by norm_num)
     rw [he]
     rfl,
   (metrics_invariant_enforcement _).2.2.2.1 (fun n => by cases n <;> rfl),
   (metrics_invariant_enforcement _).2.2.2.2
      (by
        intro p hp lv hv h1 _
        simp only [ciPairs, List.mem_cons, List.not_mem_nil, or_false] at hp
        rcases hp with rfl | rfl | rfl <;> exact Option.noConfusion h1)
      (by
        intro n hn v hv
        simp only [probNames, List.mem_cons, List.not_mem_nil, or_false] at hn
        rcases hn with rfl | rfl | rfl | rfl | rfl | rfl <;>
          exact Option.noConfusion hv)
      (by
        intro n hn v hv
        simp only [nonProbNames, List.mem_cons, List.not_mem_nil, or_false] at hn
        rcases hn with rfl | rfl | rfl | rfl | rfl | rfl | rfl
        · injection hv with hv
          rw [← hv]
          norm_num
        all_goals exact Option.noConfusion hv)
      ⟨.map, by decide⟩⟩

theorem mem_model_dump_keys (fm : ForecastMetrics) (n : MetricName) :
    n.value ∈ fm.model_dump.map Prod.fst ↔ (fm.fieldGet n).isSome := by
  unfold ForecastMetrics.model_dump
  rw [List.map_filterMap]
  constructor
  · intro h
    rw [List.mem_filterMap] at h
    obtain ⟨m, _, he⟩ := h
    cases hv : fm.fieldGet m with
    | none =>
      rw [hv] at he
      simp at he
    | some v =>
      rw [hv] at he
      simp only [Option.map_some', Option.some.injEq] at he
      have hmn := MetricName.value_injective m n he
      subst hmn
      simp [hv]
  · intro h
    rw [List.mem_filterMap]
    refine ⟨n, MetricName.mem_all n, ?_⟩
    cases hv : fm.fieldGet n with
    | none =>
      rw [hv] at h
      simp at h
    | some v =>
      simp

theorem get_forecasts_mem {ds : Dataset} {country : Option String}
    {gids : Option (List ℤ)} {months : Option (List String)}
    {metrics : Option (List MetricName)} {mcs : Option (List MetricConstraint)}
    {fs : List GridCellForecast}
    (h : get_forecasts ds country gids months metrics mcs = .ok fs) :
    ∀ f ∈ fs, ∃ r, buildForecast ds.cols (selectedMetrics metrics) r = .ok f := by
  intro f hf
  unfold get_forecasts at h
  cases hfr : filterRows ds country gids months mcs with
  | error e =>
    rw [hfr] at h
    simp [Bind.bind, Except.bind] at h
  | ok rows =>
    rw [hfr] at h
    simp only [Bind.bind, Except.bind] at h
    obtain ⟨r, _, hb⟩ := buildAll_mem h f hf
    exact ⟨r, hb⟩

/-- C4: a query projecting `metrics=["map","prob_10"]` yields result rows
whose serialised metrics object has exactly the keys `map` and `prob_10`
(given that both columns are in the dataset schema, as the row contract of
§6 requires); a query with no metrics list projects all thirteen fields;
and serialisation emits a key exactly when the field is present — absent
fields are omitted, never defaulted. -/
theorem metric_projection_keys :
    (∀ (ds : Dataset) (country : Option String) (gids : Option (List ℤ))
       (months : Option (List String)) (mcs : Option (List MetricConstraint))
       (fs : List GridCellForecast),
      "map" ∈ ds.cols → "prob_10" ∈ ds.cols →
      get_forecasts ds country gids months (some [.map, .prob_10]) mcs = .ok fs →
      ∀ f ∈ fs, f.metrics.model_dump.map Prod.fst = ["map", "prob_10"]) ∧
    (∀ (ds : Dataset) (country : Option String) (gids : Option (List ℤ))
       (months : Option (List String)) (mcs : Option (List MetricConstraint))
       (fs : List GridCellForecast),
      (∀ n : MetricName, n.value ∈ ds.cols) →
      get_forecasts ds country gids months none mcs = .ok fs →
      ∀ f ∈ fs, f.metrics.model_dump.map Prod.fst = ALL_METRIC_NAMES) ∧
    (∀ (fm : ForecastMetrics) (n : MetricName),
      n.value ∈ fm.model_dump.map Prod.fst ↔ (fm.fieldGet n).isSome) := by
  refine ⟨?_, ?_, mem_model_dump_keys⟩
  · intro ds country gids months mcs fs hmap hprob h f hf
    obtain ⟨r, hb⟩ := get_forecasts_mem h f hf
    obtain ⟨fm, hmk, hfe⟩ := buildForecast_ok hb
    rw [mkForecastMetrics_ok_iff] at hmk
    obtain ⟨-, -, rfl⟩ := hmk
    subst hfe
    have hcm : ds.cols.contains "map" = true := (contains_iff_mem _ _).mpr hmap
    have hcp : ds.cols.contains "prob_10" = true :=
      (contains_iff_mem _ _).mpr hprob
    have e_map : projFun ds.cols
        (selectedMetrics (some [MetricName.map, MetricName.prob_10])) r .map =
        some (r.mval .map) := by
      unfold projFun
      rw [if_pos]
      rw [Bool.and_eq_true]
      exact ⟨by decide, hcm⟩
    have e_ci_50_low : projFun ds.cols
        (selectedMetrics (some [MetricName.map, MetricName.prob_10])) r .ci_50_low =
        none := by
      unfold projFun
      rw [if_neg]
      rw [Bool.and_eq_true]
      intro hand
      exact absurd hand.1 (by decide)
    have e_ci_50_high : projFun ds.cols
        (selectedMetrics (some [MetricName.map, MetricName.prob_10])) r .ci_50_high =
        none := by
      unfold projFun
      rw [if_neg]
      rw [Bool.and_eq_true]
      intro hand
      exact absurd hand.1 (by decide)
    have e_ci_90_low : projFun ds.cols
        (selectedMetrics (some [MetricName.map, MetricName.prob_10])) r .ci_90_low =
        none := by
      unfold projFun
      rw [if_neg]
      rw [Bool.and_eq_true]
      intro hand
      exact absurd hand.1 (by decide)
    have e_ci_90_high : projFun ds.cols
        (selectedMetrics (some [MetricName.map, MetricName.prob_10])) r .ci_90_high =
        none := by
      unfold projFun
      rw [if_neg]
      rw [Bool.and_eq_true]
      intro hand
      exact absurd hand.1 (by decide)
    have e_ci_99_low : projFun ds.cols
        (selectedMetrics (some [MetricName.map, MetricName.prob_10])) r .ci_99_low =
        none := by
      unfold projFun
      rw [if_neg]
      rw [Bool.and_eq_true]
      intro hand
      exact absurd hand.1 (by decide)
    have e_ci_99_high : projFun ds.cols
        (selectedMetrics (some [MetricName.map, MetricName.prob_10])) r .ci_99_high =
        none := by
      unfold projFun
      rw [if_neg]
      rw [Bool.and_eq_true]
      intro hand
      exact absurd hand.1 (by decide)
    have e_prob_0 : projFun ds.cols
        (selectedMetrics (some [MetricName.map, MetricName.prob_10])) r .prob_0 =
        none := by
      unfold projFun
      rw [if_neg]
      rw [Bool.and_eq_true]
      intro hand
      exact absurd hand.1 (by decide)
    have e_prob_1 : projFun ds.cols
        (selectedMetrics (some [MetricName.map, MetricName.prob_10])) r .prob_1 =
        none := by
      unfold projFun
      rw [if_neg]
      rw [Bool.and_eq_true]
      intro hand
      exact absurd hand.1 (by decide)
    have e_prob_10 : projFun ds.cols
        (selectedMetrics (some [MetricName.map, MetricName.prob_10])) r .prob_10 =
        some (r.mval .prob_10) := by
      unfold projFun
      rw [if_pos]
      rw [Bool.and_eq_true]
      exact ⟨by decide, hcp⟩
    have e_prob_100 : projFun ds.cols
        (selectedMetrics (some [MetricName.map, MetricName.prob_10])) r .prob_100 =
        none := by
      unfold projFun
      rw [if_neg]
      rw [Bool.and_eq_true]
      intro hand
      exact absurd hand.1 (by decide)
    have e_prob_1000 : projFun ds.cols
        (selectedMetrics (some [MetricName.map, MetricName.prob_10])) r .prob_1000 =
        none := by
      unfold projFun
      rw [if_neg]
      rw [Bool.and_eq_true]
      intro hand
      exact absurd hand.1 (by decide)
    have e_prob_10000 : projFun ds.cols
        (selectedMetrics (some [MetricName.map, MetricName.prob_10])) r .prob_10000 =
        none := by
      unfold projFun
      rw [if_neg]
      rw [Bool.and_eq_true]
      intro hand
      exact absurd hand.1 (by decide)
    simp only [ForecastMetrics.model_dump, MetricName.all,
      List.filterMap_cons, List.filterMap_nil, ForecastMetrics.fieldGet,
      e_map, e_ci_50_low, e_ci_50_high, e_ci_90_low, e_ci_90_high, e_ci_99_low, e_ci_99_high, e_prob_0, e_prob_1, e_prob_10, e_prob_100, e_prob_1000, e_prob_10000, Option.map_some', Option.map_none', MetricName.value]
    rfl
  · intro ds country gids months mcs fs hall h f hf
    obtain ⟨r, hb⟩ := get_forecasts_mem h f hf
    obtain ⟨fm, hmk, hfe⟩ := buildForecast_ok hb
    rw [mkForecastMetrics_ok_iff] at hmk
    obtain ⟨-, -, rfl⟩ := hmk
    subst hfe
    have hc : ∀ n : MetricName, ds.cols.contains n.value = true :=
      fun n => (contains_iff_mem _ _).mpr (hall n)
    have e_map : projFun ds.cols (selectedMetrics none) r .map =
        some (r.mval .map) := by
      unfold projFun
      rw [if_pos]
      rw [Bool.and_eq_true]
      exact ⟨by decide, hc .map⟩
    have e_ci_50_low : projFun ds.cols (selectedMetrics none) r .ci_50_low =
        some (r.mval .ci_50_low) := by
      unfold projFun
      rw [if_pos]
      rw [Bool.and_eq_true]
      exact ⟨by decide, hc .ci_50_low⟩
    have e_ci_50_high : projFun ds.cols (selectedMetrics none) r .ci_50_high =
        some (r.mval .ci_50_high) := by
      unfold projFun
      rw [if_pos]
      rw [Bool.and_eq_true]
      exact ⟨by decide, hc .ci_50_high⟩
    have e_ci_90_low : projFun ds.cols (selectedMetrics none) r .ci_90_low =
        some (r.mval .ci_90_low) := by
      unfold projFun
      rw [if_pos]
      rw [Bool.and_eq_true]
      exact ⟨by decide, hc .ci_90_low⟩
    have e_ci_90_high : projFun ds.cols (selectedMetrics none) r .ci_90_high =
        some (r.mval .ci_90_high) := by
      unfold projFun
      rw [if_pos]
      rw [Bool.and_eq_true]
      exact ⟨by decide, hc .ci_90_high⟩
    have e_ci_99_low : projFun ds.cols (selectedMetrics none) r .ci_99_low =
        some (r.mval .ci_99_low) := by
      unfold projFun
      rw [if_pos]
      rw [Bool.and_eq_true]
      exact ⟨by decide, hc .ci_99_low⟩
    have e_ci_99_high : projFun ds.cols (selectedMetrics none) r .ci_99_high =
        some (r.mval .ci_99_high) := by
      unfold projFun
      rw [if_pos]
      rw [Bool.and_eq_true]
      exact ⟨by decide, hc .ci_99_high⟩
    have e_prob_0 : projFun ds.cols (selectedMetrics none) r .prob_0 =
        some (r.mval .prob_0) := by
      unfold projFun
      rw [if_pos]
      rw [Bool.and_eq_true]
      exact ⟨by decide, hc .prob_0⟩
    have e_prob_1 : projFun ds.cols (selectedMetrics none) r .prob_1 =
        some (r.mval .prob_1) := by
      unfold projFun
      rw [if_pos]
      rw [Bool.and_eq_true]
      exact ⟨by decide, hc .prob_1⟩
    have e_prob_10 : projFun ds.cols (selectedMetrics none) r .prob_10 =
        some (r.mval .prob_10) := by
      unfold projFun
      rw [if_pos]
      rw [Bool.and_eq_true]
      exact ⟨by decide, hc .prob_10⟩
    have e_prob_100 : projFun ds.cols (selectedMetrics none) r .prob_100 =
        some (r.mval .prob_100) := by
      unfold projFun
      rw [if_pos]
      rw [Bool.and_eq_true]
      exact ⟨by decide, hc .prob_100⟩
    have e_prob_1000 : projFun ds.cols (selectedMetrics none) r .prob_1000 =
        some (r.mval .prob_1000) := by
      unfold projFun
      rw [if_pos]
      rw [Bool.and_eq_true]
      exact ⟨by decide, hc .prob_1000⟩
    have e_prob_10000 : projFun ds.cols (selectedMetrics none) r .prob_10000 =
        some (r.mval .prob_10000) := by
      unfold projFun
      rw [if_pos]
      rw [Bool.and_eq_true]
      exact ⟨by decide, hc .prob_10000⟩
    simp only [ForecastMetrics.model_dump, MetricName.all,
      List.filterMap_cons, List.filterMap_nil, ForecastMetrics.fieldGet,
      e_map, e_ci_50_low, e_ci_50_high, e_ci_90_low, e_ci_90_high, e_ci_99_low, e_ci_99_high, e_prob_0, e_prob_1, e_prob_10, e_prob_100, e_prob_1000, e_prob_10000, Option.map_some', MetricName.value]
    rfl

/-- Fixture row 1 projected to `metrics=["map","prob_10"]`. -/
def demoProj1 : GridCellForecast :=
  ⟨1, mkRat 111 10, mkRat 72 5, "074", some "074-ADM1-00", some "074-ADM2-00",
   "2024-01", { map := some 60, prob_10 := some (mkRat 1 2) }⟩

/-- Fixture row 2 projected to `metrics=["map","prob_10"]`. -/
def demoProj2 : GridCellForecast :=
  ⟨1, mkRat 111 10, mkRat 72 5, "074", some "074-ADM1-00", some "074-ADM2-00",
   "2024-02", { map := some 40, prob_10 := some (mkRat 3 10) }⟩

/-- Fixture row 3 projected to `metrics=["map","prob_10"]`. -/
def demoProj3 : GridCellForecast :=
  ⟨2, mkRat (-6) 5, mkRat 65 2, "800", some "800-ADM1-00", some "800-ADM2-00",
   "2024-01", { map := some 15, prob_10 := some (mkRat 1 5) }⟩

theorem metric_projection_keys_witness :
    demoProj1.metrics.model_dump.map Prod.fst = ["map", "prob_10"] :=
  metric_projection_keys.1 demoDataset none none none none
    [demoProj1, demoProj2, demoProj3] (by decide) (by decide) (by decide)
    demoProj1 (List.mem_cons_self _ _)

/-- A forecast record whose metrics lack `map` (as produced, for example,
by a query projecting `metrics=["prob_10"]`). -/
def maplessForecast : GridCellForecast :=
  ⟨1, 0, 0, "074", none, none, "2024-01",
   { prob_10 := some (mkRat 1 2) }⟩

/-- C5: the summary aggregator raises `TypeError` on a list containing a
record whose metrics lack `map` — `hasattr(forecast.metrics, "map")` is
`True` for every pydantic model instance, so the loop adds `None` into
`total_map`.  This contradicts the claim (and the spec's requirement that
partial records be tolerated): the code, not the claim, is at fault. -/
theorem summary_partial_record_raises :
    get_forecast_summary [maplessForecast] =
      .error "TypeError: unsupported operand type(s) for +=: 'float' and 'NoneType'" := rfl

/-- The literal dictionary returned by `get_forecast_summary` for an empty
result set (line 91 of `forecast_service.py`). -/
def emptySummaryDict : List (String × PyVal) :=
  [("count", .int 0), ("countries", .list []), ("months", .list []),
   ("grid_cells", .list [])]

/-- C6 counterexample to the claim as stated: on the empty list the code
returns `grid_cells` as an empty *list* (not the integer 0) and returns no
`metrics_summary` key at all. -/
theorem summary_empty_counterexample :
    get_forecast_summary [] = .ok emptySummaryDict ∧
    emptySummaryDict.lookup "grid_cells" = some (.list []) ∧
    emptySummaryDict.lookup "metrics_summary" = none :=
  ⟨rfl, rfl, rfl⟩

/-- C6 (amended): the summary over an empty list is exactly
`{"count": 0, "countries": [], "months": [], "grid_cells": []}` —
`grid_cells` is an empty list rather than the number 0, and there is no
`metrics_summary` key. -/
theorem summary_empty_result :
    get_forecast_summary [] = .ok emptySummaryDict ∧
    emptySummaryDict.lookup "count" = some (.int 0) ∧
    emptySummaryDict.lookup "countries" = some (.list []) ∧
    emptySummaryDict.lookup "months" = some (.list []) ∧
    emptySummaryDict.lookup "grid_cells" = some (.list []) ∧
    emptySummaryDict.lookup "metrics_summary" = none :=
  ⟨rfl, rfl, rfl, rfl, rfl, rfl⟩

theorem uniqueFirst_go_mem {α : Type} [DecidableEq α] :
    ∀ (l seen : List α) (a : α),
      a ∈ uniqueFirst.go seen l ↔ (a ∈ l ∧ a ∉ seen) := by
  intro l
  induction l with
  | nil =>
    intro seen a
    simp [uniqueFirst.go]
  | cons x rest ih =>
    intro seen a
    by_cases hx : seen.contains x = true
    · rw [uniqueFirst.go, if_pos hx, ih]
      have hxs : x ∈ seen := (contains_iff_mem _ _).mp hx
      simp only [List.mem_cons]
      constructor
      · rintro ⟨ha, hns⟩
        exact ⟨Or.inr ha, hns⟩
      · rintro ⟨hor, hns⟩
        rcases hor with rfl | ha
        · exact absurd hxs hns
        · exact ⟨ha, hns⟩
    · rw [uniqueFirst.go, if_neg hx]
      simp only [List.mem_cons, ih]
      have hxs : x ∉ seen := fun hm => hx ((contains_iff_mem _ _).mpr hm)
      constructor
      · rintro (rfl | ⟨ha, hns⟩)
        · exact ⟨Or.inl rfl, hxs⟩
        · exact ⟨Or.inr ha, fun hm => hns (Or.inr hm)⟩
      · rintro ⟨hor, hns⟩
        rcases hor with rfl | ha
        · exact Or.inl rfl
        · by_cases hax : a = x
          · exact Or.inl hax
          · exact Or.inr ⟨ha, fun hm => hm.elim hax hns⟩

theorem uniqueFirst_go_nodup {α : Type} [DecidableEq α] :
    ∀ (l seen : List α), (uniqueFirst.go seen l).Nodup := by
  intro l
  induction l with
  | nil =>
    intro seen
    simp [uniqueFirst.go]
  | cons x rest ih =>
    intro seen
    by_cases hx : seen.contains x = true
    · rw [uniqueFirst.go, if_pos hx]
      exact ih seen
    · rw [uniqueFirst.go, if_neg hx]
      refine List.nodup_cons.mpr ⟨?_, ih _⟩
      intro hmem
      rw [uniqueFirst_go_mem] at hmem
      exact hmem.2 (List.mem_cons_self _ _)

theorem uniqueFirst_mem {α : Type} [DecidableEq α] (l : List α) (a : α) :
    a ∈ uniqueFirst l ↔ a ∈ l := by
  unfold uniqueFirst
  rw [uniqueFirst_go_mem]
  simp

theorem uniqueFirst_nodup {α : Type} [DecidableEq α] (l : List α) :
    (uniqueFirst l).Nodup :=
  uniqueFirst_go_nodup l []

/-- The unsorted month entries built by `get_available_months`. -/
def monthEntriesOf (rows : List Row) : List MonthEntry :=
  (uniqueFirst (rows.map (·.month))).map (fun m =>
    ⟨m, (rows.filter (fun r => decide (r.month = m))).length,
     uniqueFirst ((rows.filter (fun r => decide (r.month = m))).map
       (·.country_id))⟩)

theorem get_available_months_perm (rows : List Row) :
    (get_available_months rows).Perm (monthEntriesOf rows) :=
  List.perm_insertionSort _ _

/-- C10: the months-metadata listing has exactly one entry per distinct
month of the dataset, is sorted ascending by month string, and each entry
carries the row count of its month and exactly the distinct countries
occurring in those rows. -/
theorem months_metadata_correct (rows : List Row) :
    ((get_available_months rows).map (·.month)).Nodup ∧
    (∀ m, m ∈ (get_available_months rows).map (·.month) ↔
      m ∈ rows.map (·.month)) ∧
    (get_available_months rows).Pairwise monthEntryLe ∧
    (∀ e ∈ get_available_months rows,
      e.forecast_count =
        (rows.filter (fun r => decide (r.month = e.month))).length ∧
      e.countries.Nodup ∧
      (∀ c, c ∈ e.countries ↔
        c ∈ (rows.filter (fun r => decide (r.month = e.month))).map
          (·.country_id))) := by
  have hperm := get_available_months_perm rows
  have hmapeq : (monthEntriesOf rows).map (·.month) =
      uniqueFirst (rows.map (·.month)) := by
    unfold monthEntriesOf
    rw [List.map_map]
    exact List.map_id _
  refine ⟨?_, ?_, ?_, ?_⟩
  · rw [(hperm.map (·.month)).nodup_iff, hmapeq]
    exact uniqueFirst_nodup _
  · intro m
    rw [(hperm.map (·.month)).mem_iff, hmapeq, uniqueFirst_mem]
  · exact List.sorted_insertionSort monthEntryLe _
  · intro e he
    have he2 : e ∈ monthEntriesOf rows := hperm.mem_iff.mp he
    unfold monthEntriesOf at he2
    rw [List.mem_map] at he2
    obtain ⟨m, _, rfl⟩ := he2
    refine ⟨rfl, uniqueFirst_nodup _, ?_⟩
    intro c
    rw [uniqueFirst_mem]

theorem months_metadata_correct_witness :
    ("2024-01" ∈ (get_available_months demoDataset.rows).map (·.month)) ∧
    ("2024-02" ∈ (get_available_months demoDataset.rows).map (·.month)) :=
  ⟨((months_metadata_correct demoDataset.rows).2.1 "2024-01").mpr (by decide),
   ((months_metadata_correct demoDataset.rows).2.1 "2024-02").mpr (by decide)⟩
